import Mathlib

/-!
Verification development for the GoHighLevel integration layer of the
ai-agency repository.  The TypeScript sources are shallowly embedded:

* `src/server/ghl/privateToken.ts` — token cache / acquirer
  (`performTokenRequest`, `obtainFreshToken`, `getPrivateAccessToken`,
  `invalidatePrivateAccessToken`);
* `src/app/api/ghl/subaccounts/route.ts` — list dispatcher (`parseLimit`,
  `clampLimit`, `POST`);
* `src/app/api/ghl/subaccounts/[locationId]/custom-values/route.ts` —
  endpoint prober (`fetchCustomValues`, `requestCustomValuesForBase`, `POST`).

JavaScript is single threaded; asynchronous functions are embedded as
state-passing functions over an explicit `World` (module-level mutable
state plus instrumentation counters), with the network modelled as an
oracle carried by `Env`.  JSON values produced by `JSON.parse` are the
inductive type `JVal` (such values are never `NaN`/`Infinity`, so finite
JavaScript numbers — IEEE doubles, hence rationals — are modelled by the
exact fraction type `JsNumber`).  Timestamps are `JsNumber` milliseconds,
as returned by `Date.now()`.
-/

set_option autoImplicit false

/-- Exact value of a finite JavaScript number (IEEE doubles are
rational).  Kept as an unreduced fraction with positive denominator so
that all arithmetic is kernel-computable (no gcd normalisation); every
equation in this development compares values built by the same
computation, so unnormalised representations are never a problem. -/
structure JsNumber where
  num : Int
  den : Nat
deriving DecidableEq, Repr

def JsNumber.ofInt (n : Int) : JsNumber := { num := n, den := 1 }

instance (n : Nat) : OfNat JsNumber n := ⟨{ num := n, den := 1 }⟩

instance : Add JsNumber :=
  ⟨fun a b => { num := a.num * b.den + b.num * a.den, den := a.den * b.den }⟩

instance : Sub JsNumber :=
  ⟨fun a b => { num := a.num * b.den - b.num * a.den, den := a.den * b.den }⟩

instance : Mul JsNumber :=
  ⟨fun a b => { num := a.num * b.num, den := a.den * b.den }⟩

instance : LT JsNumber := ⟨fun a b => a.num * b.den < b.num * a.den⟩

instance : LE JsNumber := ⟨fun a b => a.num * b.den ≤ b.num * a.den⟩

instance (a b : JsNumber) : Decidable (a < b) :=
  inferInstanceAs (Decidable (a.num * b.den < b.num * a.den))

instance (a b : JsNumber) : Decidable (a ≤ b) :=
  inferInstanceAs (Decidable (a.num * b.den ≤ b.num * a.den))

/-- `Math.max` on finite numbers. -/
def jsMax (a b : JsNumber) : JsNumber := if a < b then b else a

/-- `Math.floor` on a finite number. -/
def JsNumber.floor (a : JsNumber) : Int := Int.fdiv a.num a.den

/-- A fraction with positive denominator; every number produced by
`JSON.parse` or by the arithmetic of this development satisfies this. -/
def JsNumber.WF (a : JsNumber) : Prop := 0 < a.den

/-- `String.prototype.trim()`: strip whitespace from both ends
(list-based so the kernel can compute it). -/
def jsTrim (s : String) : String :=
  String.mk (((s.data.dropWhile Char.isWhitespace).reverse.dropWhile Char.isWhitespace).reverse)

/-- `path.startsWith("/")`. -/
def hasLeadingSlash (s : String) : Bool :=
  match s.data with
  | c :: _ => c = '/'
  | [] => false

/-- ASCII lowercasing, enough for the case-insensitive scheme test. -/
def asciiLower (c : Char) : Char :=
  if 65 ≤ c.toNat ∧ c.toNat ≤ 90 then Char.ofNat (c.toNat + 32) else c

/-- `array.join(sep)`. -/
def joinSep (sep : String) : List String → String
  | [] => ""
  | [x] => x
  | x :: y :: rest => x ++ sep ++ joinSep sep (y :: rest)

/-- A JSON value as produced by `JSON.parse`. -/
inductive JVal where
  | nullv
  | boolv (b : Bool)
  | numv (q : JsNumber)
  | strv (s : String)
  | arrv (elems : List JVal)
  | objv (fields : List (String × JVal))

/-- First binding of a key in a JavaScript object literal. -/
def lookupField : List (String × JVal) → String → Option JVal
  | [], _ => none
  | (k, v) :: rest, key => if k = key then some v else lookupField rest key

/-- Property access `payload.key` on a parsed JSON value: defined exactly
when the value is an object, `undefined` (here `none`) otherwise. -/
def jGetField : JVal → String → Option JVal
  | JVal.objv fields, key => lookupField fields key
  | _, _ => none

/-- `isRecord` from `src/lib/ghl`: a non-null, non-array object. -/
def isRecordJ : JVal → Bool
  | JVal.objv _ => true
  | _ => false

/-- Value of a digit string (used by the `Number.parseInt` model). -/
def digitsVal (ds : List Char) : Nat :=
  ds.foldl (fun acc c => acc * 10 + (c.toNat - 48)) 0

/-- `Number.parseInt(s, 10)`: skip leading whitespace, optional sign, then
the longest prefix of decimal digits; `none` models `NaN` (no digits). -/
def jsParseInt (s : String) : Option Int :=
  let cs := s.data.dropWhile (fun c => c.isWhitespace)
  let signAndRest : Bool × List Char :=
    match cs with
    | '-' :: rest => (true, rest)
    | '+' :: rest => (false, rest)
    | rest => (false, rest)
  let ds := signAndRest.2.takeWhile (fun c => c.isDigit)
  if ds.isEmpty then none
  else some (if signAndRest.1 then -(digitsVal ds : Int) else (digitsVal ds : Int))

/-- `parseExpiresIn` (privateToken.ts:46): a finite number is returned as
is, a string is fed to `Number.parseInt`, everything else is `0`.  The
argument is the (possibly absent) `expires_in` field of a parsed JSON
payload, so a present number is always finite. -/
def parseExpiresIn : Option JVal → JsNumber
  | some (JVal.numv q) => q
  | some (JVal.strv s) =>
    match jsParseInt s with
    | some n => JsNumber.ofInt n
    | none => 0
  | _ => 0

/-- A string property that is present, a string, and whose trim is
non-empty, returned trimmed (the `payload.message`/`payload.error`
pattern of `normaliseError`). -/
def trimmedNonemptyField (payload : JVal) (key : String) : Option String :=
  match jGetField payload key with
  | some (JVal.strv s) => if jsTrim s = "" then none else some (jsTrim s)
  | _ => none

/-- `normaliseError` (privateToken.ts:61). -/
def normaliseError (payload : JVal) (status : Int) : String :=
  match trimmedNonemptyField payload "message" with
  | some m => m
  | none =>
    match trimmedNonemptyField payload "error" with
    | some e => e
    | none => s!"HighLevel token request failed with status {status}."

/-- The body of an upstream HTTP response, as seen after `response.text()`
and the guarded `JSON.parse`: empty text, non-empty text that fails to
parse, or a parsed JSON value. -/
inductive BodyR where
  | empty
  | malformed (raw : String)
  | parsed (j : JVal)

/-- Outcome of one outbound `fetch`: either an HTTP response (any status)
or a transport-level rejection carrying the thrown error message. -/
inductive FetchOutcome where
  | http (status : Int) (body : BodyR)
  | netError (msg : String)

/-- One OAuth grant attempt, as sent to the provider token endpoint. -/
inductive Grant where
  | refresh (token : String)
  | authCode (code : String)
deriving DecidableEq, Repr

/-- `TokenCache` (privateToken.ts:15): `expiresAt` is a `Date.now()`
style millisecond timestamp. -/
structure TokenCache where
  accessToken : String
  refreshToken : Option String
  expiresAt : JsNumber
deriving DecidableEq, Repr

/-- The environment of a request: the current time, the trimmed
configuration values (`none` models a missing or empty variable), and the
resource-API network oracle mapping (bearer token, url) to an outcome. -/
structure Env where
  now : JsNumber
  clientId : Option String
  clientSecret : Option String
  authCode : Option String
  net : String → String → FetchOutcome

/-- Module-level mutable state of `privateToken.ts` (`cachedToken`,
`lastKnownRefreshToken`) together with instrumentation: the upcoming
token-endpoint responses (consumed in FIFO order by each token request),
the number of token-endpoint fetches performed, the number of
`obtainFreshToken` invocations, the grants sent, and the resource urls
fetched. -/
structure World where
  cachedToken : Option TokenCache
  lastKnownRefreshToken : Option String
  tokenResponses : List FetchOutcome
  tokenCalls : Nat
  acquisitions : Nat
  grantLog : List Grant
  resourceLog : List String

/-- Default `EXPIRY_BUFFER` (privateToken.ts:10): the environment
override is absent, so the buffer is 60 seconds. -/
def TOKEN_BUFFER : JsNumber := 60

/-- `MINIMUM_EXPIRY_FALLBACK_SECONDS` (privateToken.ts:13). -/
def MINIMUM_EXPIRY_FALLBACK_SECONDS : JsNumber := 30

def missingCredsMessage : String :=
  "Missing GHL private integration credentials. Define GHL_PRIVATE_CLIENT_ID and GHL_PRIVATE_CLIENT_SECRET."

def noCredentialsMessage : String :=
  "No refresh token or authorization code is configured for the HighLevel private integration."

/-- Payload seen by `performTokenRequest` after the guarded parse: empty
text or a parse failure both leave the initial `{}`. -/
def tokenPayloadOfBody : BodyR → JVal
  | BodyR.parsed j => j
  | _ => JVal.objv []

/-- `params.refresh_token ?? null`: only the refresh grant carries a
`refresh_token` parameter. -/
def grantRefreshParam : Grant → Option String
  | Grant.refresh rt => some rt
  | Grant.authCode _ => none

/-- `performTokenRequest` (privateToken.ts:73): check client credentials,
POST to the token endpoint (consuming the next oracle response), parse the
body, and on success build and cache the token.  A transport rejection or
a non-2xx status is a thrown error (`Except.error`). -/
def performTokenRequest (env : Env) (grant : Grant) (w : World) :
    Except String TokenCache × World :=
  if env.clientId.isNone || env.clientSecret.isNone then
    (Except.error missingCredsMessage, w)
  else
    let outcome := w.tokenResponses.headD (FetchOutcome.netError "fetch failed")
    let w1 : World :=
      { w with tokenResponses := w.tokenResponses.tail,
               tokenCalls := w.tokenCalls + 1,
               grantLog := w.grantLog ++ [grant] }
    match outcome with
    | FetchOutcome.netError msg => (Except.error msg, w1)
    | FetchOutcome.http status body =>
      let payload := tokenPayloadOfBody body
      if 200 ≤ status ∧ status < 300 then
        let accessToken :=
          match jGetField payload "access_token" with
          | some (JVal.strv s) => jsTrim s
          | _ => ""
        if accessToken = "" then
          (Except.error "HighLevel token response did not include an access_token.", w1)
        else
          let expiresIn := parseExpiresIn (jGetField payload "expires_in")
          let refreshToken : Option String :=
            match jGetField payload "refresh_token" with
            | some (JVal.strv s) =>
              if (jsTrim s).length > 0 then some (jsTrim s) else grantRefreshParam grant
            | _ => grantRefreshParam grant
          let effectiveDuration := jsMax (expiresIn - TOKEN_BUFFER) MINIMUM_EXPIRY_FALLBACK_SECONDS
          let expiresAt := env.now + effectiveDuration * 1000
          let token : TokenCache :=
            { accessToken := accessToken, refreshToken := refreshToken, expiresAt := expiresAt }
          let w2 : World :=
            { w1 with cachedToken := some token,
                      lastKnownRefreshToken :=
                        match refreshToken with
                        | some s => if s = "" then w1.lastKnownRefreshToken else some s
                        | none => w1.lastKnownRefreshToken }
          (Except.ok token, w2)
      else
        (Except.error (normaliseError payload status), w1)

/-- The authorization-code half of `obtainFreshToken`
(privateToken.ts:152-169): attempt the code grant when one is configured,
otherwise (or on failure) throw the joined attempt errors, falling back to
the fixed configuration message when no grant was ever attempted. -/
def obtainViaAuthCode (env : Env) (attemptErrors : List String) (w : World) :
    Except String TokenCache × World :=
  match env.authCode with
  | some code =>
    match performTokenRequest env (Grant.authCode code) w with
    | (Except.ok token, w1) => (Except.ok token, w1)
    | (Except.error e, w1) =>
      (Except.error (joinSep " | " (attemptErrors ++ [e])), w1)
  | none =>
    (Except.error
      (if attemptErrors.length > 0 then joinSep " | " attemptErrors
       else noCredentialsMessage), w)

/-- `obtainFreshToken` (privateToken.ts:135): refresh grant first when a
refresh token is known; on its failure the stored refresh token is
discarded before the authorization-code fallback. -/
def obtainFreshToken (env : Env) (w : World) : Except String TokenCache × World :=
  match w.lastKnownRefreshToken with
  | some refreshToken =>
    match performTokenRequest env (Grant.refresh refreshToken) w with
    | (Except.ok token, w1) => (Except.ok token, w1)
    | (Except.error e, w1) =>
      obtainViaAuthCode env [e] { w1 with lastKnownRefreshToken := none }
  | none => obtainViaAuthCode env [] w

/-- The acquisition path of `getPrivateAccessToken`: start (and count) one
`obtainFreshToken` and resolve with its access token.  In the sequential
(single-caller) embedding the in-flight promise slot is always empty at
this point; the shared-promise behaviour is modelled separately by
`SFState` below. -/
def acquireAccess (env : Env) (w0 : World) : Except String String × World :=
  let w := { w0 with acquisitions := w0.acquisitions + 1 }
  match obtainFreshToken env w with
  | (Except.ok token, w1) => (Except.ok token.accessToken, w1)
  | (Except.error e, w1) => (Except.error e, w1)

/-- `getPrivateAccessToken` (privateToken.ts:172), sequential embedding:
serve the cached token while `expiresAt > Date.now()`, otherwise acquire. -/
def getPrivateAccessToken (env : Env) (w : World) : Except String String × World :=
  match w.cachedToken with
  | some token =>
    if env.now < token.expiresAt then (Except.ok token.accessToken, w)
    else acquireAccess env w
  | none => acquireAccess env w

/-- `invalidatePrivateAccessToken` (privateToken.ts:200). -/
def invalidatePrivateAccessToken (w : World) : World :=
  { w with cachedToken := none }

/-! ### Shared helpers from `src/lib/ghl` -/

def DEFAULT_GHL_BASE_URL : String := "https://rest.gohighlevel.com/v1"

def LEADCONNECTOR_BASE_URL : String := "https://services.leadconnectorhq.com/v1"

/-- `candidate.replace(/\/+$/, "")`. -/
def stripTrailingSlashes (s : String) : String :=
  String.mk (s.data.reverse.dropWhile (fun c => c = '/')).reverse

/-- `path.startsWith("/") ? path : "/" + path`. -/
def ensureLeadingSlash (path : String) : String :=
  if hasLeadingSlash path then path else "/" ++ path

/-- The case-insensitive test `/^https?:\/\//i`. -/
def hasHttpScheme (s : String) : Bool :=
  "http://".data.isPrefixOf (s.data.map asciiLower) ||
    "https://".data.isPrefixOf (s.data.map asciiLower)

/-- `sanitiseBaseUrl` from `src/lib/ghl`; the argument is the raw
`body.baseUrl` JSON field (absent = `none`). -/
def sanitiseBaseUrl : Option JVal → String
  | some (JVal.strv s) =>
    let trimmed := jsTrim s
    if trimmed.length > 0 then
      let cleaned := stripTrailingSlashes trimmed
      if hasHttpScheme cleaned then cleaned else DEFAULT_GHL_BASE_URL
    else DEFAULT_GHL_BASE_URL
  | _ => DEFAULT_GHL_BASE_URL

/-- Hexadecimal digit (upper case), for percent-encoding. -/
def hexDigitChar (n : Nat) : Char :=
  if n < 10 then Char.ofNat (48 + n) else Char.ofNat (55 + n)

def percentByte (b : Nat) : String :=
  "%" ++ String.mk [hexDigitChar (b / 16), hexDigitChar (b % 16)]

/-- UTF-8 bytes of a code point, for percent-encoding. -/
def utf8Bytes (n : Nat) : List Nat :=
  if n < 128 then [n]
  else if n < 2048 then [192 + n / 64, 128 + n % 64]
  else if n < 65536 then [224 + n / 4096, 128 + (n / 64) % 64, 128 + n % 64]
  else [240 + n / 262144, 128 + (n / 4096) % 64, 128 + (n / 64) % 64, 128 + n % 64]

/-- The characters `encodeURIComponent` leaves unescaped. -/
def isUnreservedURI (c : Char) : Bool :=
  c.isAlpha || c.isDigit || c = '-' || c = '_' || c = '.' || c = '!' ||
    c = '~' || c = '*' || c = Char.ofNat 39 || c = '(' || c = ')'

def encodeURIComponent (s : String) : String :=
  String.join (s.data.map (fun c =>
    if isUnreservedURI c then String.singleton c
    else String.join ((utf8Bytes c.toNat).map percentByte)))

/-! ### `src/app/api/ghl/subaccounts/route.ts` (list dispatcher) -/

def DEFAULT_LIMIT : Int := 50

def MAX_LIMIT : Int := 500

/-- `clampLimit` (route.ts:35): clamp into `[1, MAX_LIMIT]`, flooring
in-range values. -/
def clampLimit (value : JsNumber) : Int :=
  if value < 1 then 1
  else if value > JsNumber.ofInt MAX_LIMIT then MAX_LIMIT
  else value.floor

/-- `parseLimit` (route.ts:20); the argument is the raw `body.limit` JSON
field (absent = `none`; a parsed JSON number is always finite, so the
`Number.isFinite` guard is captured by the `numv` case). -/
def parseLimit : Option JVal → Int
  | some (JVal.numv q) => clampLimit q
  | some (JVal.strv s) =>
    match jsParseInt s with
    | some n => clampLimit (JsNumber.ofInt n)
    | none => DEFAULT_LIMIT
  | _ => DEFAULT_LIMIT

/-- `typeof body.searchTerm === "string" ? body.searchTerm.trim() : ""`. -/
def trimmedSearchTerm (bodyJ : JVal) : String :=
  match jGetField bodyJ "searchTerm" with
  | some (JVal.strv s) => jsTrim s
  | _ => ""

/-- The truthiness pattern
`isRecord(payload) && typeof payload.message === "string" && payload.message`. -/
def truthyMessage (payload : JVal) : Option String :=
  match jGetField payload "message" with
  | some (JVal.strv s) => if s = "" then none else some s
  | _ => none

/-- Serialisation of `new URL(baseUrl + "/locations/")` with the `limit`
and (when non-empty) `search` query parameters.  `new URL` is the
identity on the sanitised absolute base urls used here; the
`URLSearchParams` escaping of the search term is modelled by
`encodeURIComponent`. -/
def listRequestUrl (baseUrl : String) (limit : Int) (searchTerm : String) : String :=
  baseUrl ++ "/locations/?limit=" ++ toString limit ++
    (if searchTerm = "" then "" else "&search=" ++ encodeURIComponent searchTerm)

/-- One resource-API `fetch`, recorded in the resource log. -/
def resourceFetch (env : Env) (token url : String) (w : World) : FetchOutcome × World :=
  (env.net token url, { w with resourceLog := w.resourceLog ++ [url] })

/-- Payload variable of the list route, initialised to `null` and left
`null` when the body is empty or fails to parse. -/
def listPayloadOfBody : BodyR → JVal
  | BodyR.parsed j => j
  | _ => JVal.nullv

/-- Responses of the list route.  `success` carries the parsed upstream
payload together with the echoed query and source url; the normalised
`locations`/`meta` fields of the JSON body are pure functions of this
payload (the `extractLocations`/`normalizeLocation`/`filterLocationsByTerm`
pipeline) and are not needed by any claim, so they are not embedded. -/
inductive ListResponse where
  | badJson (error : String)
  | tokenFailure (error : String)
  | networkFailure (error : String)
  | upstreamFailure (error : String) (statusCode : Int)
  | success (payload : JVal) (limit : Int) (searchTerm : String) (baseUrl : String) (url : String)

def netFailureMessage : String :=
  "Unable to reach the Go High Level API. Check your base URL and network connectivity."

/-- The tail of the list route after a response was obtained: parse the
body, surface a non-2xx status with its message, otherwise succeed. -/
def finishList (status : Int) (body : BodyR) (limit : Int) (searchTerm baseUrl url : String) :
    ListResponse :=
  let payload := listPayloadOfBody body
  if ¬(200 ≤ status ∧ status < 300) then
    ListResponse.upstreamFailure
      (match truthyMessage payload with
       | some m => m
       | none => "Failed to retrieve sub-accounts from Go High Level.") status
  else
    ListResponse.success payload limit searchTerm baseUrl url

/-- `POST` of `src/app/api/ghl/subaccounts/route.ts`: `reqBody = none`
models a request body that is not valid JSON.  A 401/403 first response
invalidates the cache, re-acquires, and retries the identical request
once; a token re-acquisition failure inside the `try` block lands in the
route's `catch`, which returns the 502 network-failure response. -/
def subaccountsPOST (env : Env) (reqBody : Option JVal) (w : World) : ListResponse × World :=
  match reqBody with
  | none => (ListResponse.badJson "Invalid request body. Ensure the payload is valid JSON.", w)
  | some bodyJ =>
    let baseUrl := sanitiseBaseUrl (jGetField bodyJ "baseUrl")
    let limit := parseLimit (jGetField bodyJ "limit")
    let searchTerm := trimmedSearchTerm bodyJ
    let requestUrl := listRequestUrl baseUrl limit searchTerm
    match getPrivateAccessToken env w with
    | (Except.error msg, w1) => (ListResponse.tokenFailure msg, w1)
    | (Except.ok accessToken, w1) =>
      match resourceFetch env accessToken requestUrl w1 with
      | (FetchOutcome.netError _, w2) => (ListResponse.networkFailure netFailureMessage, w2)
      | (FetchOutcome.http status1 body1, w2) =>
        if status1 = 401 ∨ status1 = 403 then
          match getPrivateAccessToken env (invalidatePrivateAccessToken w2) with
          | (Except.error _, w3) => (ListResponse.networkFailure netFailureMessage, w3)
          | (Except.ok refreshedToken, w3) =>
            match resourceFetch env refreshedToken requestUrl w3 with
            | (FetchOutcome.netError _, w4) => (ListResponse.networkFailure netFailureMessage, w4)
            | (FetchOutcome.http status2 body2, w4) =>
              (finishList status2 body2 limit searchTerm baseUrl requestUrl, w4)
        else (finishList status1 body1 limit searchTerm baseUrl requestUrl, w2)

/-! ### `src/app/api/ghl/subaccounts/[locationId]/custom-values/route.ts` -/

/-- `FetchAttemptResult` (custom-values route.ts:28). -/
structure FetchAttemptResult where
  ok : Bool
  status : Int
  url : String
  baseUrl : String
  path : String
  payload : JVal
  message : String

/-- `buildAttempt` (custom-values route.ts:58). -/
def buildAttempt (baseUrl path : String) (payload : JVal) (status : Int)
    (message : String) (ok : Bool) : FetchAttemptResult :=
  let normalisedBase := stripTrailingSlashes baseUrl
  let normalisedPath := ensureLeadingSlash path
  { ok := ok, status := status, url := normalisedBase ++ normalisedPath,
    baseUrl := normalisedBase, path := normalisedPath,
    payload := payload, message := message }

/-- The url a probe attempt targets. -/
def attemptUrl (baseUrl path : String) : String :=
  stripTrailingSlashes baseUrl ++ ensureLeadingSlash path

/-- Payload variable of `fetchCustomValues`: initialised to `null`, left
`null` on an empty body, and set to the raw response text when
`JSON.parse` throws. -/
def cvPayloadOfBody : BodyR → JVal
  | BodyR.parsed j => j
  | BodyR.malformed raw => JVal.strv raw
  | BodyR.empty => JVal.nullv

/-- The attempt record `fetchCustomValues` builds from one fetch outcome:
a transport rejection becomes a status-0 attempt carrying the error
message; a non-2xx response carries its (truthy) `message` field or a
generic status message; a 2xx response is the `ok` attempt. -/
def attemptOfOutcome (baseUrl path : String) : FetchOutcome → FetchAttemptResult
  | FetchOutcome.netError msg =>
    buildAttempt baseUrl (ensureLeadingSlash path) JVal.nullv 0 msg false
  | FetchOutcome.http status body =>
    let payload := cvPayloadOfBody body
    if ¬(200 ≤ status ∧ status < 300) then
      let url := attemptUrl baseUrl path
      buildAttempt baseUrl (ensureLeadingSlash path) payload status
        (match truthyMessage payload with
         | some m => m
         | none => s!"Go High Level returned status {status} for {url}.")
        false
    else
      buildAttempt baseUrl (ensureLeadingSlash path) payload status "OK" true

/-- `fetchCustomValues` without the log side effect. -/
def pureFetch (env : Env) (accessToken baseUrl path : String) : FetchAttemptResult :=
  attemptOfOutcome baseUrl path (env.net accessToken (attemptUrl baseUrl path))

/-- `fetchCustomValues` (custom-values route.ts:79). -/
def fetchCustomValues (env : Env) (baseUrl path accessToken : String) (w : World) :
    FetchAttemptResult × World :=
  (pureFetch env accessToken baseUrl path,
   { w with resourceLog := w.resourceLog ++ [attemptUrl baseUrl path] })

/-- `PATH_PATTERNS` (custom-values route.ts:20), in source order. -/
def PATH_PATTERNS : List (String → String) :=
  [ fun locationId => "/locations/" ++ encodeURIComponent locationId ++ "/customValues",
    fun locationId => "/customValues/location/" ++ encodeURIComponent locationId,
    fun locationId => "/custom-values/location/" ++ encodeURIComponent locationId,
    fun locationId => "/locations/" ++ encodeURIComponent locationId ++ "/custom-values",
    fun locationId => "/customValues/" ++ encodeURIComponent locationId ]

/-- The `for (const pattern of PATH_PATTERNS)` loop of
`requestCustomValuesForBase`: first 2xx wins, a 404 continues, any other
status (including a status-0 network failure) stops the probe. -/
def probeLoop (env : Env) (locationId baseUrl accessToken : String) :
    List (String → String) → List FetchAttemptResult → World →
    (Option FetchAttemptResult × List FetchAttemptResult) × World
  | [], attempts, w => ((none, attempts), w)
  | pattern :: rest, attempts, w =>
    let fetched := fetchCustomValues env baseUrl (pattern locationId) accessToken w
    let attempt := fetched.1
    let attempts1 := attempts ++ [attempt]
    if attempt.ok then ((some attempt, attempts1), fetched.2)
    else if attempt.status = 0 then ((none, attempts1), fetched.2)
    else if attempt.status ≠ 404 then ((none, attempts1), fetched.2)
    else probeLoop env locationId baseUrl accessToken rest attempts1 fetched.2

/-- `requestCustomValuesForBase` (custom-values route.ts:120). -/
def requestCustomValuesForBase (env : Env) (locationId baseUrl accessToken : String)
    (w : World) : (Option FetchAttemptResult × List FetchAttemptResult) × World :=
  probeLoop env locationId baseUrl accessToken PATH_PATTERNS [] w

/-- A field that is present and itself a record. -/
def recordField (payload : JVal) (key : String) : Option JVal :=
  match jGetField payload key with
  | some v => if isRecordJ v then some v else none
  | none => none

/-- `extractMeta` of the custom-values route (route.ts:38). -/
def extractMetaCV (payload : JVal) : Option JVal :=
  if isRecordJ payload then
    match recordField payload "meta" with
    | some m => some m
    | none =>
      match recordField payload "pagination" with
      | some m => some m
      | none =>
        match jGetField payload "total" with
        | some (JVal.numv t) => some (JVal.objv [("total", JVal.numv t)])
        | _ => none
  else none

/-- Responses of the custom-values route.  `success` carries the raw
payload of the winning attempt: the JSON body's `customValues`/`count`
fields are `normalizeCustomValues(payload)` and its length, a function
declared in `src/lib/ghl` whose definition is not part of the sources and
on which no claim depends.  `emptyResult` is the HTTP-200 fallthrough
response, whose `customValues` and `count` fields are the literals `[]`
and `0`. -/
inductive CVResponse where
  | badRequest (error : String)
  | tokenFailure (error : String)
  | tokenFailureWithTrail (error : String)
      (attemptedUrls attemptedBaseUrls attemptedPaths : List String)
  | success (payload : JVal) (meta : Option JVal) (sourceUrl resolvedBaseUrl : String)
      (attemptedUrls attemptedBaseUrls attemptedPaths : List String)
  | networkFailure (error : String)
      (attemptedUrls attemptedBaseUrls attemptedPaths : List String)
  | upstreamFailure (error : String) (statusCode : Int)
      (attemptedUrls attemptedBaseUrls attemptedPaths : List String)
  | emptyResult (customValues : List JVal) (count : Nat) (warning : String)
      (sourceUrl : Option String)
      (attemptedUrls attemptedBaseUrls attemptedPaths : List String)

def urlsOf (attempts : List FetchAttemptResult) : List String :=
  attempts.map (fun a => a.url)

def baseUrlsOf (attempts : List FetchAttemptResult) : List String :=
  attempts.map (fun a => a.baseUrl)

def pathsOf (attempts : List FetchAttemptResult) : List String :=
  attempts.map (fun a => a.path)

/-- The keep-first-occurrence-per-url filter
`allAttempts.filter((a, i, arr) => arr.findIndex(c => c.url === a.url) === i)`,
written with an accumulator of already-seen urls. -/
def uniqueAux : List FetchAttemptResult → List String → List FetchAttemptResult
  | [], _ => []
  | a :: rest, seen =>
    if a.url ∈ seen then uniqueAux rest seen
    else a :: uniqueAux rest (a.url :: seen)

def uniqueAttempts (attempts : List FetchAttemptResult) : List FetchAttemptResult :=
  uniqueAux attempts []

/-- The failure handling after one base's probe (custom-values
route.ts:258-284): a status-0 attempt yields the 502 network response, a
non-404 attempt yields the upstream-failure response, all-404 yields
nothing (the loop moves on). -/
def cvFailResponse (attempts allAttempts : List FetchAttemptResult) : Option CVResponse :=
  if attempts.any (fun a => a.status == 0) then
    let networkAttempt :=
      match attempts.find? (fun a => a.status == 0) with
      | some a => some a
      | none => attempts.getLast?
    some (CVResponse.networkFailure
      (match networkAttempt with
       | some a => a.message
       | none => netFailureMessage)
      (urlsOf allAttempts) (baseUrlsOf allAttempts) (pathsOf allAttempts))
  else
    match attempts.find? (fun a => a.status != 404) with
    | some a =>
      some (CVResponse.upstreamFailure a.message a.status
        (urlsOf allAttempts) (baseUrlsOf allAttempts) (pathsOf allAttempts))
    | none => none

/-- The success response built from a winning attempt (custom-values
route.ts:241-256). -/
def cvSuccessResponse (s : FetchAttemptResult) (allAttempts : List FetchAttemptResult) :
    CVResponse :=
  CVResponse.success s.payload (extractMetaCV s.payload) s.url s.baseUrl
    (urlsOf allAttempts) (baseUrlsOf allAttempts) (pathsOf allAttempts)

/-- Handling of one base's probe result: `result.success?.ok` first, then
the failure checks; `none` means the loop continues with the next base. -/
def cvStep (succ : Option FetchAttemptResult) (attempts allAttempts : List FetchAttemptResult) :
    Option CVResponse :=
  match succ with
  | some s =>
    if s.ok then some (cvSuccessResponse s allAttempts) else cvFailResponse attempts allAttempts
  | none => cvFailResponse attempts allAttempts

/-- The fallthrough response after every base is exhausted (custom-values
route.ts:287-311). -/
def cvEmptyResponse (allAttempts : List FetchAttemptResult) : CVResponse :=
  let uniq := uniqueAttempts allAttempts
  CVResponse.emptyResult [] 0
    (if uniq.length > 0 then
       "No custom values were found for this sub-account using the known API endpoints."
     else "No custom values were found for this sub-account.")
    ((uniq.getLast?).map (fun a => a.url))
    (urlsOf uniq) (baseUrlsOf uniq) (pathsOf uniq)

/-- The `for (const base of candidateBases)` loop of the custom-values
`POST` (route.ts:207-285), including the single unauthorized retry: when
a base's probe fails with some 401/403 attempt and the retry is unused,
the token cache is invalidated, a fresh token is acquired (a failure
there is the 500 response carrying the trail so far), and the same base
is probed again before the result is evaluated. -/
def cvLoop (env : Env) (locationId : String) :
    List String → String → List FetchAttemptResult → Bool → World → CVResponse × World
  | [], _, allAttempts, _, w => (cvEmptyResponse allAttempts, w)
  | base :: rest, accessToken, allAttempts, retryUsed, w =>
    let probed := requestCustomValuesForBase env locationId base accessToken w
    let all1 := allAttempts ++ probed.1.2
    let unauthorized := probed.1.2.any (fun a => a.status == 401 || a.status == 403)
    if probed.1.1.isNone && unauthorized && !retryUsed then
      match getPrivateAccessToken env (invalidatePrivateAccessToken probed.2) with
      | (Except.error msg, w3) =>
        (CVResponse.tokenFailureWithTrail msg (urlsOf all1) (baseUrlsOf all1) (pathsOf all1), w3)
      | (Except.ok token2, w3) =>
        let probed2 := requestCustomValuesForBase env locationId base token2 w3
        let all2 := all1 ++ probed2.1.2
        match cvStep probed2.1.1 probed2.1.2 all2 with
        | some resp => (resp, probed2.2)
        | none => cvLoop env locationId rest token2 all2 true probed2.2
    else
      match cvStep probed.1.1 probed.1.2 all1 with
      | some resp => (resp, probed.2)
      | none => cvLoop env locationId rest accessToken all1 retryUsed probed.2

/-- The candidate base list (custom-values route.ts:169-185).  The
`addCandidate` seen-set can only drop a base equal to an earlier one; the
two canonical hosts differ, so the lists are as written. -/
def candidateBases (primaryBase : String) : List String :=
  if primaryBase = DEFAULT_GHL_BASE_URL then [primaryBase, LEADCONNECTOR_BASE_URL]
  else if primaryBase = LEADCONNECTOR_BASE_URL then [primaryBase, DEFAULT_GHL_BASE_URL]
  else [primaryBase]

/-- `POST` of the custom-values route: `reqBody = none` models a request
body that is not valid JSON (the route then proceeds with `{}`). -/
def customValuesPOST (env : Env) (locationId : String) (reqBody : Option JVal) (w : World) :
    CVResponse × World :=
  if locationId = "" then (CVResponse.badRequest "A sub-account identifier is required.", w)
  else
    let bodyJ := reqBody.getD (JVal.objv [])
    let primaryBase := sanitiseBaseUrl (jGetField bodyJ "baseUrl")
    match getPrivateAccessToken env w with
    | (Except.error msg, w1) => (CVResponse.tokenFailure msg, w1)
    | (Except.ok accessToken, w1) =>
      cvLoop env locationId (candidateBases primaryBase) accessToken [] false w1

/-! ### Event-loop model of the shared in-flight acquisition

The synchronous prologue of `getPrivateAccessToken` (the cache check and
the test-and-set of the `inFlight` slot, privateToken.ts:172-183) runs
atomically: `obtainFreshToken` suspends only inside its first `fetch`, so
no other caller can interleave before `inFlight` is assigned.  A caller's
arrival is therefore one atomic step, and the settlement of the shared
acquisition promise is another: on success `performTokenRequest` has set
`cachedToken`, the `finally` clears `inFlight`, and every awaiting caller
resolves with `token.accessToken`. -/

/-- State of the event-loop model: the cache slot, the in-flight slot
holding the callers awaiting the shared acquisition (in arrival order),
the number of `obtainFreshToken` invocations started, and the callers
already resolved, each with the access token it received. -/
structure SFState where
  cachedToken : Option TokenCache
  inFlight : Option (List Nat)
  acquisitions : Nat
  resolved : List (Nat × String)
deriving DecidableEq, Repr

/-- Is a cached token present and valid (`expiresAt > now`)? -/
def sfCacheValid (now : JsNumber) (s : SFState) : Bool :=
  match s.cachedToken with
  | some token => decide (now < token.expiresAt)
  | none => false

/-- A caller reaching privateToken.ts:179: join the in-flight
acquisition, starting one (and counting it) when none is under way. -/
def sfJoin (s : SFState) (caller : Nat) : SFState :=
  match s.inFlight with
  | some waiters => { s with inFlight := some (waiters ++ [caller]) }
  | none => { s with inFlight := some [caller], acquisitions := s.acquisitions + 1 }

/-- One call to `getPrivateAccessToken`: resolve immediately from a valid
cache, otherwise join (or start) the in-flight acquisition. -/
def sfArrive (now : JsNumber) (s : SFState) (caller : Nat) : SFState :=
  match s.cachedToken with
  | some token =>
    if now < token.expiresAt then
      { s with resolved := s.resolved ++ [(caller, token.accessToken)] }
    else sfJoin s caller
  | none => sfJoin s caller

/-- Successful settlement of the in-flight acquisition with `token`:
the cache now holds `token`, the in-flight slot is cleared, and every
waiting caller resolves with `token.accessToken`. -/
def sfComplete (token : TokenCache) (s : SFState) : SFState :=
  { s with cachedToken := some token,
           inFlight := none,
           resolved := s.resolved ++
             (s.inFlight.getD []).map (fun caller => (caller, token.accessToken)) }

/-- A batch of callers arriving (in order) while the acquisition, if any,
is still pending. -/
def sfArrivals (now : JsNumber) (callers : List Nat) (s : SFState) : SFState :=
  callers.foldl (sfArrive now) s

/-- The attempt produced by probing one path pattern. -/
def probeF (env : Env) (accessToken baseUrl locationId : String)
    (pattern : String → String) : FetchAttemptResult :=
  pureFetch env accessToken baseUrl (pattern locationId)

/-! ### Concrete fixtures used by the witness theorems -/

def emptyWorld : World :=
  { cachedToken := none, lastKnownRefreshToken := none, tokenResponses := [],
    tokenCalls := 0, acquisitions := 0, grantLog := [], resourceLog := [] }

def unusedNet : String → String → FetchOutcome :=
  fun _ _ => FetchOutcome.netError "unused"

def payloadC4 : JVal :=
  JVal.objv [("access_token", JVal.strv "t1"), ("expires_in", JVal.numv 3600)]

def envC4 : Env :=
  { now := 0, clientId := some "id", clientSecret := some "secret",
    authCode := none, net := unusedNet }

def wC4 : World :=
  { emptyWorld with lastKnownRefreshToken := some "r0",
                    tokenResponses := [FetchOutcome.http 200 (BodyR.parsed payloadC4)] }

def tokC4 : TokenCache :=
  { accessToken := "t1", refreshToken := some "r0", expiresAt := 3540000 }

def payloadC8 : JVal :=
  JVal.objv [("access_token", JVal.strv "t1"), ("refresh_token", JVal.strv "r9")]

def envC8 : Env :=
  { now := 0, clientId := some "id", clientSecret := some "secret",
    authCode := none, net := unusedNet }

def wC8 : World :=
  { emptyWorld with tokenResponses := [FetchOutcome.http 200 (BodyR.parsed payloadC8)] }

def tokC8 : TokenCache :=
  { accessToken := "t1", refreshToken := some "r9", expiresAt := 30000 }

def envC5 : Env :=
  { now := 0, clientId := some "id", clientSecret := some "secret",
    authCode := some "ac", net := unusedNet }

def wC5 : World :=
  { emptyWorld with
      lastKnownRefreshToken := some "r1",
      tokenResponses := [FetchOutcome.http 400 (BodyR.parsed (JVal.objv [("message", JVal.strv "bad one")])),
                         FetchOutcome.http 500 BodyR.empty] }

def envC5f : Env :=
  { now := 0, clientId := some "id", clientSecret := some "secret",
    authCode := none, net := unusedNet }

def envC7 : Env :=
  { now := 50, clientId := none, clientSecret := none, authCode := none, net := unusedNet }

def wC7valid : World :=
  { emptyWorld with cachedToken := some { accessToken := "tv", refreshToken := none, expiresAt := 100 } }

def wC7expired : World :=
  { emptyWorld with cachedToken := some { accessToken := "tv", refreshToken := none, expiresAt := 10 } }

def payloadC3a : JVal :=
  JVal.objv [("access_token", JVal.strv "t1"), ("refresh_token", JVal.strv "r2"),
             ("expires_in", JVal.numv 3600)]

def payloadC3b : JVal :=
  JVal.objv [("access_token", JVal.strv "t2")]

def envC3 : Env :=
  { now := 0, clientId := some "id", clientSecret := some "secret", authCode := none,
    net := fun tok _ =>
      if tok = "t1" then FetchOutcome.http 401 BodyR.empty
      else FetchOutcome.http 200 (BodyR.parsed (JVal.objv [("locations", JVal.arrv [])])) }

def wC3 : World :=
  { emptyWorld with
      lastKnownRefreshToken := some "r0",
      tokenResponses := [FetchOutcome.http 200 (BodyR.parsed payloadC3a),
                         FetchOutcome.http 200 (BodyR.parsed payloadC3b)] }

def urlC3 : String := listRequestUrl DEFAULT_GHL_BASE_URL 50 ""

def envC6 : Env :=
  { now := 0, clientId := some "id", clientSecret := some "secret", authCode := none,
    net := fun _ _ => FetchOutcome.http 404 BodyR.empty }

def wC6 : World :=
  { emptyWorld with
      lastKnownRefreshToken := some "r0",
      tokenResponses := [FetchOutcome.http 200 (BodyR.parsed (JVal.objv [("access_token", JVal.strv "t1")]))] }

def envC2x : Env :=
  { now := 0, clientId := some "id", clientSecret := some "secret", authCode := none,
    net := fun tok url =>
      if tok = "t1" then FetchOutcome.http 401 BodyR.empty
      else if url = attemptUrl DEFAULT_GHL_BASE_URL "/locations/loc1/customValues" then
        FetchOutcome.http 404 BodyR.empty
      else FetchOutcome.http 200 BodyR.empty }

def wC2x : World :=
  { emptyWorld with
      lastKnownRefreshToken := some "r0",
      tokenResponses := [FetchOutcome.http 200 (BodyR.parsed payloadC3a),
                         FetchOutcome.http 200 (BodyR.parsed payloadC3b)] }

def envC2w : Env :=
  { now := 0, clientId := some "id", clientSecret := some "secret", authCode := none,
    net := fun _ url =>
      if url = attemptUrl DEFAULT_GHL_BASE_URL "/locations/loc1/customValues" then
        FetchOutcome.http 404 BodyR.empty
      else FetchOutcome.http 500 BodyR.empty }

def wC2w : World :=
  { emptyWorld with
      lastKnownRefreshToken := some "r0",
      tokenResponses := [FetchOutcome.http 200 (BodyR.parsed (JVal.objv [("access_token", JVal.strv "t1")]))] }

def envC2n : Env :=
  { now := 0, clientId := some "id", clientSecret := some "secret", authCode := none,
    net := fun _ url =>
      if url = attemptUrl DEFAULT_GHL_BASE_URL "/locations/loc1/customValues" then
        FetchOutcome.http 404 BodyR.empty
      else FetchOutcome.netError "boom" }

def wC2n : World :=
  { emptyWorld with
      lastKnownRefreshToken := some "r0",
      tokenResponses := [FetchOutcome.http 200 (BodyR.parsed (JVal.objv [("access_token", JVal.strv "t1")]))] }

/-! ### Structural lemmas about the token module -/

theorem performTokenRequest_log_acq (env : Env) (g : Grant) (w : World) :
    ((performTokenRequest env g w).2).resourceLog = w.resourceLog ∧
    ((performTokenRequest env g w).2).acquisitions = w.acquisitions := by
  unfold performTokenRequest
  dsimp only
  split
  · exact ⟨rfl, rfl⟩
  · split <;> try exact ⟨rfl, rfl⟩
    split <;> try exact ⟨rfl, rfl⟩
    split <;> exact ⟨rfl, rfl⟩

theorem performTokenRequest_ok_cache (env : Env) (g : Grant) (w : World)
    (tok : TokenCache) (w' : World)
    (h : performTokenRequest env g w = (Except.ok tok, w')) :
    w'.cachedToken = some tok := by
  unfold performTokenRequest at h
  dsimp only at h
  split at h
  · simp at h
  · split at h
    · simp at h
    · split at h
      · split at h
        · simp at h
        · rw [Prod.mk.injEq] at h
          obtain ⟨h1, h2⟩ := h
          cases h1
          rw [← h2]
      · simp at h

theorem performTokenRequest_grantLog (env : Env) (g : Grant) (w : World)
    (hci : env.clientId.isSome) (hcs : env.clientSecret.isSome) :
    ((performTokenRequest env g w).2).grantLog = w.grantLog ++ [g] := by
  unfold performTokenRequest
  dsimp only
  split
  next hcred =>
    rw [Bool.or_eq_true] at hcred
    rcases hcred with hc | hc
    · rw [Option.isNone_iff_eq_none] at hc
      rw [hc] at hci
      simp at hci
    · rw [Option.isNone_iff_eq_none] at hc
      rw [hc] at hcs
      simp at hcs
  · split <;> try rfl
    split <;> try rfl
    split <;> rfl

theorem performTokenRequest_grantLog_cases (env : Env) (g : Grant) (w : World) :
    ((performTokenRequest env g w).2).grantLog = w.grantLog ∨
    ((performTokenRequest env g w).2).grantLog = w.grantLog ++ [g] := by
  unfold performTokenRequest
  dsimp only
  split
  · exact Or.inl rfl
  · right
    split <;> try rfl
    split <;> try rfl
    split <;> rfl

theorem obtainViaAuthCode_log_acq (env : Env) (errs : List String) (w : World) :
    ((obtainViaAuthCode env errs w).2).resourceLog = w.resourceLog ∧
    ((obtainViaAuthCode env errs w).2).acquisitions = w.acquisitions := by
  unfold obtainViaAuthCode
  split
  next c hc =>
    split
    next tok w1 heq =>
      have h := performTokenRequest_log_acq env (Grant.authCode c) w
      rw [heq] at h
      exact h
    next e w1 heq =>
      have h := performTokenRequest_log_acq env (Grant.authCode c) w
      rw [heq] at h
      exact h
  · exact ⟨rfl, rfl⟩

theorem obtainFreshToken_log_acq (env : Env) (w : World) :
    ((obtainFreshToken env w).2).resourceLog = w.resourceLog ∧
    ((obtainFreshToken env w).2).acquisitions = w.acquisitions := by
  unfold obtainFreshToken
  split
  next rt hrt =>
    split
    next tok w1 heq =>
      have h := performTokenRequest_log_acq env (Grant.refresh rt) w
      rw [heq] at h
      exact h
    next e w1 heq =>
      have h := performTokenRequest_log_acq env (Grant.refresh rt) w
      rw [heq] at h
      have h2 := obtainViaAuthCode_log_acq env [e] { w1 with lastKnownRefreshToken := none }
      exact ⟨h2.1.trans h.1, h2.2.trans h.2⟩
  · exact obtainViaAuthCode_log_acq env [] w

theorem obtainViaAuthCode_ok_cache (env : Env) (errs : List String) (w : World)
    (tok : TokenCache) (w' : World)
    (h : obtainViaAuthCode env errs w = (Except.ok tok, w')) :
    w'.cachedToken = some tok := by
  unfold obtainViaAuthCode at h
  split at h
  · split at h
    next heq =>
      rw [Prod.mk.injEq] at h
      obtain ⟨h1, h2⟩ := h
      cases h1
      subst h2
      exact performTokenRequest_ok_cache _ _ _ _ _ heq
    next => simp at h
  · simp at h

theorem obtainFreshToken_ok_cache (env : Env) (w : World) (tok : TokenCache) (w' : World)
    (h : obtainFreshToken env w = (Except.ok tok, w')) :
    w'.cachedToken = some tok := by
  unfold obtainFreshToken at h
  split at h
  · split at h
    next heq =>
      rw [Prod.mk.injEq] at h
      obtain ⟨h1, h2⟩ := h
      cases h1
      subst h2
      exact performTokenRequest_ok_cache _ _ _ _ _ heq
    next heq => exact obtainViaAuthCode_ok_cache _ _ _ _ _ h
  · exact obtainViaAuthCode_ok_cache _ _ _ _ _ h

theorem acquireAccess_log (env : Env) (w : World) :
    ((acquireAccess env w).2).resourceLog = w.resourceLog := by
  unfold acquireAccess
  dsimp only
  split
  next tok w1 heq =>
    have h := obtainFreshToken_log_acq env { w with acquisitions := w.acquisitions + 1 }
    rw [heq] at h
    exact h.1
  next e w1 heq =>
    have h := obtainFreshToken_log_acq env { w with acquisitions := w.acquisitions + 1 }
    rw [heq] at h
    exact h.1

theorem acquireAccess_acq (env : Env) (w : World) :
    ((acquireAccess env w).2).acquisitions = w.acquisitions + 1 := by
  unfold acquireAccess
  dsimp only
  split
  next tok w1 heq =>
    have h := obtainFreshToken_log_acq env { w with acquisitions := w.acquisitions + 1 }
    rw [heq] at h
    exact h.2
  next e w1 heq =>
    have h := obtainFreshToken_log_acq env { w with acquisitions := w.acquisitions + 1 }
    rw [heq] at h
    exact h.2

theorem acquireAccess_ok_cache (env : Env) (w : World) (a : String) (w' : World)
    (h : acquireAccess env w = (Except.ok a, w')) :
    ∃ tok : TokenCache, w'.cachedToken = some tok ∧ tok.accessToken = a := by
  unfold acquireAccess at h
  dsimp only at h
  split at h
  next tok w1 heq =>
    rw [Prod.mk.injEq] at h
    obtain ⟨h1, h2⟩ := h
    cases h1
    subst h2
    exact ⟨tok, obtainFreshToken_ok_cache _ _ _ _ heq, rfl⟩
  next e w1 heq => simp at h

theorem getPrivateAccessToken_log (env : Env) (w : World) :
    ((getPrivateAccessToken env w).2).resourceLog = w.resourceLog := by
  unfold getPrivateAccessToken
  split
  next tok heq =>
    split
    · rfl
    · exact acquireAccess_log env w
  · exact acquireAccess_log env w

theorem getPrivateAccessToken_acq_miss (env : Env) (w : World)
    (hc : w.cachedToken = none) :
    ((getPrivateAccessToken env w).2).acquisitions = w.acquisitions + 1 := by
  unfold getPrivateAccessToken
  rw [hc]
  exact acquireAccess_acq env w

theorem getPrivateAccessToken_ok_cache_miss (env : Env) (w : World) (a : String) (w' : World)
    (hc : w.cachedToken = none)
    (h : getPrivateAccessToken env w = (Except.ok a, w')) :
    ∃ tok : TokenCache, w'.cachedToken = some tok ∧ tok.accessToken = a := by
  unfold getPrivateAccessToken at h
  rw [hc] at h
  exact acquireAccess_ok_cache _ _ _ _ h

theorem performTokenRequest_ok_refresh (env : Env) (g : Grant) (w : World)
    (tok : TokenCache) (w' : World) (s : String)
    (h : performTokenRequest env g w = (Except.ok tok, w'))
    (hrt : tok.refreshToken = some s) (hne : ¬s = "") :
    w'.lastKnownRefreshToken = some s := by
  unfold performTokenRequest at h
  dsimp only at h
  split at h
  · simp at h
  · split at h
    · simp at h
    · split at h
      · split at h
        · simp at h
        · rw [Prod.mk.injEq] at h
          obtain ⟨h1, h2⟩ := h
          cases h1
          dsimp only at hrt
          rw [← h2]
          dsimp only
          rw [hrt]
          simp [hne]
      · simp at h

/-- C8: `invalidatePrivateAccessToken()` clears the cached token
unconditionally in every state and changes nothing else; in particular
the last-known refresh token recorded by a successful acquisition
survives the invalidation and is still available afterwards. -/
theorem invalidate_frame_spec :
    (∀ w : World, invalidatePrivateAccessToken w = { w with cachedToken := none }) ∧
    (∀ w : World, (invalidatePrivateAccessToken w).cachedToken = none ∧
      (invalidatePrivateAccessToken w).lastKnownRefreshToken = w.lastKnownRefreshToken) ∧
    (∀ (env : Env) (g : Grant) (w : World) (tok : TokenCache) (w' : World) (s : String),
      performTokenRequest env g w = (Except.ok tok, w') →
      tok.refreshToken = some s → ¬s = "" →
      (invalidatePrivateAccessToken w').lastKnownRefreshToken = some s)
    := by
  refine ⟨fun w => rfl, fun w => ⟨rfl, rfl⟩, ?_⟩
  intro env g w tok w' s h hrt hne
  exact performTokenRequest_ok_refresh env g w tok w' s h hrt hne

theorem invalidate_frame_spec_witness :
    (invalidatePrivateAccessToken (performTokenRequest envC8 (Grant.refresh "r0") wC8).2).lastKnownRefreshToken = some "r9" := by
  exact invalidate_frame_spec.2.2 envC8 (Grant.refresh "r0") wC8 tokC8
    (performTokenRequest envC8 (Grant.refresh "r0") wC8).2 "r9" (by rfl) rfl (by decide)

theorem jsMax_le_right (a b : JsNumber) : b ≤ jsMax a b := by
  unfold jsMax
  split
  · show b.num * b.den ≤ b.num * b.den
    exact le_refl _
  next h =>
    show b.num * a.den ≤ a.num * b.den
    exact Int.not_lt.mp h

theorem jsNumber_lt_add (a d : JsNumber) (ha : 0 < a.den) (hd : 0 < d.den)
    (h30 : MINIMUM_EXPIRY_FALLBACK_SECONDS ≤ d) : a < a + d * 1000 := by
  have h30' : (30 : Int) * (d.den : Int) ≤ d.num * 1 := h30
  have ha' : (0 : Int) < (a.den : Int) := by exact_mod_cast ha
  have hd' : (0 : Int) < (d.den : Int) := by exact_mod_cast hd
  show a.num * (a.den * (d.den * 1)) < (a.num * (d.den * 1) + d.num * 1000 * a.den) * a.den
  nlinarith [mul_pos ha' ha', mul_pos hd' ha', mul_pos (mul_pos hd' ha') ha']

/-- C4: a successful acquisition caches a token whose `expiresAt` is the
acquisition time plus `max(providerExpiry − buffer, floor)` seconds
(stored in milliseconds), with the buffer defaulting to 60 s and the
floor being 30 s; a missing or non-numeric `expires_in` counts as 0; the
effective lifetime is at least the 30-second floor, so a fresh token is
never already expired. -/
theorem tokenExpiry_spec :
    (∀ (env : Env) (grant : Grant) (w : World) (st : Int) (b : BodyR)
        (rest : List FetchOutcome) (tok : TokenCache) (w' : World),
      w.tokenResponses = FetchOutcome.http st b :: rest →
      performTokenRequest env grant w = (Except.ok tok, w') →
      tok.expiresAt = env.now +
        jsMax (parseExpiresIn (jGetField (tokenPayloadOfBody b) "expires_in") - TOKEN_BUFFER)
          MINIMUM_EXPIRY_FALLBACK_SECONDS * 1000 ∧
      w'.cachedToken = some tok ∧
      MINIMUM_EXPIRY_FALLBACK_SECONDS ≤
        jsMax (parseExpiresIn (jGetField (tokenPayloadOfBody b) "expires_in") - TOKEN_BUFFER)
          MINIMUM_EXPIRY_FALLBACK_SECONDS ∧
      (0 < env.now.den →
        0 < (parseExpiresIn (jGetField (tokenPayloadOfBody b) "expires_in")).den →
        env.now < tok.expiresAt)) ∧
    TOKEN_BUFFER = 60 ∧ MINIMUM_EXPIRY_FALLBACK_SECONDS = 30 ∧
    (∀ q, parseExpiresIn (some (JVal.numv q)) = q) ∧
    (∀ s, parseExpiresIn (some (JVal.strv s)) =
      (match jsParseInt s with
       | some n => JsNumber.ofInt n
       | none => 0)) ∧
    parseExpiresIn none = 0 ∧
    parseExpiresIn (some JVal.nullv) = 0 ∧
    (∀ b, parseExpiresIn (some (JVal.boolv b)) = 0) ∧
    (∀ xs, parseExpiresIn (some (JVal.arrv xs)) = 0) ∧
    (∀ fs, parseExpiresIn (some (JVal.objv fs)) = 0) := by
  refine ⟨?_, rfl, rfl, fun q => rfl, fun s => rfl, rfl, rfl, fun b => rfl,
    fun xs => rfl, fun fs => rfl⟩
  intro env grant w st b rest tok w' hresp h
  have hcache := performTokenRequest_ok_cache env grant w tok w' h
  unfold performTokenRequest at h
  dsimp only at h
  split at h
  · simp at h
  · rw [hresp] at h
    dsimp only [List.headD] at h
    split at h
    · split at h
      · simp at h
      · rw [Prod.mk.injEq] at h
        obtain ⟨h1, h2⟩ := h
        cases h1
        refine ⟨rfl, hcache, jsMax_le_right _ _, ?_⟩
        intro hnow hexp
        dsimp only
        apply jsNumber_lt_add _ _ hnow _ (jsMax_le_right _ _)
        unfold jsMax
        split
        · exact Nat.one_pos
        · show 0 < (parseExpiresIn (jGetField (tokenPayloadOfBody b) "expires_in")).den * 1
          simpa using hexp
    · simp at h

theorem tokenExpiry_spec_witness :
    (performTokenRequest envC4 (Grant.refresh "r0") wC4).2.cachedToken = some tokC4 ∧
    tokC4.expiresAt = 3540000 ∧ envC4.now < tokC4.expiresAt := by
  have h := tokenExpiry_spec.1 envC4 (Grant.refresh "r0") wC4 200 (BodyR.parsed payloadC4) []
    tokC4 (performTokenRequest envC4 (Grant.refresh "r0") wC4).2 rfl (by rfl)
  exact ⟨h.2.1, by decide, h.2.2.2 (by decide) (by decide)⟩

/-- C7: while a cached token's `expiresAt` is strictly in the future,
`getPrivateAccessToken` serves it unchanged and performs no acquisition;
at or after `expiresAt` the cached token is not served and exactly one
acquisition is started instead. -/
theorem cachedToken_validity_spec (env : Env) (w : World) (tok : TokenCache)
    (h : w.cachedToken = some tok) :
    (env.now < tok.expiresAt →
      getPrivateAccessToken env w = (Except.ok tok.accessToken, w)) ∧
    (tok.expiresAt ≤ env.now →
      getPrivateAccessToken env w = acquireAccess env w ∧
      ((getPrivateAccessToken env w).2).acquisitions = w.acquisitions + 1) := by
  constructor
  · intro hlt
    unfold getPrivateAccessToken
    rw [h]
    exact if_pos hlt
  · intro hle
    have hcond : ¬(env.now < tok.expiresAt) := fun hlt => absurd hle (Int.not_le.mpr hlt)
    constructor
    · unfold getPrivateAccessToken
      rw [h]
      exact if_neg hcond
    · unfold getPrivateAccessToken
      rw [h]
      dsimp only
      rw [if_neg hcond]
      exact acquireAccess_acq env w

theorem cachedToken_validity_spec_witness :
    getPrivateAccessToken envC7 wC7valid =
      (Except.ok "tv", wC7valid) ∧
    ((getPrivateAccessToken envC7 wC7expired).2).acquisitions = wC7expired.acquisitions + 1 := by
  constructor
  · exact (cachedToken_validity_spec envC7 wC7valid
      { accessToken := "tv", refreshToken := none, expiresAt := 100 } rfl).1 (by decide)
  · exact ((cachedToken_validity_spec envC7 wC7expired
      { accessToken := "tv", refreshToken := none, expiresAt := 10 } rfl).2 (by decide)).2

theorem obtainViaAuthCode_grantLog_ext (env : Env) (errs : List String) (w : World) :
    ∃ ext, ((obtainViaAuthCode env errs w).2).grantLog = w.grantLog ++ ext := by
  unfold obtainViaAuthCode
  split
  next c hc =>
    split
    next tok w1 heq =>
      rcases performTokenRequest_grantLog_cases env (Grant.authCode c) w with h | h
      · rw [heq] at h
        exact ⟨[], by simpa using h⟩
      · rw [heq] at h
        exact ⟨[Grant.authCode c], h⟩
    next e w1 heq =>
      rcases performTokenRequest_grantLog_cases env (Grant.authCode c) w with h | h
      · rw [heq] at h
        exact ⟨[], by simpa using h⟩
      · rw [heq] at h
        exact ⟨[Grant.authCode c], h⟩
  · exact ⟨[], by simp⟩

/-- C5: the acquirer attempts the refresh-token grant first whenever a
refresh token is known; on its failure the stored refresh token is
discarded and an authorization-code grant is attempted exactly when a
code is configured; when every attempted grant fails the error message is
the attempted grants' messages joined by " | "; with neither a refresh
token nor a code configured it fails fast with the fixed configuration
message, contacting the provider zero times (the state, including
`tokenCalls` and `grantLog`, is returned unchanged). -/
theorem obtainFreshToken_grant_spec :
    (∀ (env : Env) (w : World) (rt : String),
      env.clientId.isSome → env.clientSecret.isSome →
      w.lastKnownRefreshToken = some rt →
      ∃ restLog, ((obtainFreshToken env w).2).grantLog =
        w.grantLog ++ Grant.refresh rt :: restLog) ∧
    (∀ (env : Env) (w : World) (rt e1 : String),
      w.lastKnownRefreshToken = some rt →
      (performTokenRequest env (Grant.refresh rt) w).1 = Except.error e1 →
      (env.authCode = none →
        obtainFreshToken env w =
          (Except.error e1,
           { (performTokenRequest env (Grant.refresh rt) w).2 with
               lastKnownRefreshToken := none })) ∧
      (∀ c, env.authCode = some c →
        obtainFreshToken env w =
          (match performTokenRequest env (Grant.authCode c)
              { (performTokenRequest env (Grant.refresh rt) w).2 with
                  lastKnownRefreshToken := none } with
           | (Except.ok token, w3) => (Except.ok token, w3)
           | (Except.error e2, w3) => (Except.error (e1 ++ " | " ++ e2), w3)))) ∧
    (∀ (env : Env) (w : World),
      w.lastKnownRefreshToken = none → env.authCode = none →
      obtainFreshToken env w = (Except.error noCredentialsMessage, w)) ∧
    (∀ (env : Env) (w : World) (c : String),
      w.lastKnownRefreshToken = none → env.authCode = some c →
      obtainFreshToken env w =
        (match performTokenRequest env (Grant.authCode c) w with
         | (Except.ok token, w3) => (Except.ok token, w3)
         | (Except.error e2, w3) => (Except.error e2, w3))) := by
  refine ⟨?_, ?_, ?_, ?_⟩
  · intro env w rt hci hcs hrt
    unfold obtainFreshToken
    rw [hrt]
    dsimp only
    rcases hp : performTokenRequest env (Grant.refresh rt) w with ⟨r, w1⟩
    have hg := performTokenRequest_grantLog env (Grant.refresh rt) w hci hcs
    rw [hp] at hg
    dsimp only at hg
    cases r with
    | ok token => exact ⟨[], by simpa using hg⟩
    | error e =>
      dsimp only
      obtain ⟨ext, hext⟩ :=
        obtainViaAuthCode_grantLog_ext env [e] { w1 with lastKnownRefreshToken := none }
      refine ⟨ext, ?_⟩
      rw [hext]
      dsimp only
      rw [hg]
      simp
  · intro env w rt e1 hrt hperf
    rcases hp : performTokenRequest env (Grant.refresh rt) w with ⟨r, w1⟩
    rw [hp] at hperf
    dsimp only at hperf
    subst hperf
    constructor
    · intro hac
      unfold obtainFreshToken
      rw [hrt]
      dsimp only
      rw [hp]
      dsimp only
      unfold obtainViaAuthCode
      rw [hac]
      rfl
    · intro c hac
      unfold obtainFreshToken
      rw [hrt]
      dsimp only
      rw [hp]
      dsimp only
      unfold obtainViaAuthCode
      rw [hac]
      dsimp only
      rcases hp2 : performTokenRequest env (Grant.authCode c)
          { w1 with lastKnownRefreshToken := none } with ⟨r2, w3⟩
      cases r2 <;> rfl
  · intro env w h1 h2
    unfold obtainFreshToken
    rw [h1]
    dsimp only
    unfold obtainViaAuthCode
    rw [h2]
    rfl
  · intro env w c h1 h2
    unfold obtainFreshToken
    rw [h1]
    dsimp only
    unfold obtainViaAuthCode
    rw [h2]
    dsimp only
    rcases hp : performTokenRequest env (Grant.authCode c) w with ⟨r, w1⟩
    cases r <;> rfl

theorem obtainFreshToken_grant_spec_witness :
    (obtainFreshToken envC5 wC5).1 =
      Except.error "bad one | HighLevel token request failed with status 500." ∧
    obtainFreshToken envC5f emptyWorld = (Except.error noCredentialsMessage, emptyWorld) := by
  constructor
  · have h := (obtainFreshToken_grant_spec.2.1 envC5 wC5 "r1" "bad one" rfl (by rfl)).2 "ac" rfl
    rw [h]
    rfl
  · exact obtainFreshToken_grant_spec.2.2.1 envC5f emptyWorld rfl rfl

theorem sfArrivals_join (now : JsNumber) (callers : List Nat) :
    ∀ (s : SFState) (waiters : List Nat),
      s.inFlight = some waiters → sfCacheValid now s = false →
      sfArrivals now callers s = { s with inFlight := some (waiters ++ callers) } := by
  induction callers with
  | nil =>
    intro s waiters h hv
    cases s
    simp_all [sfArrivals]
  | cons c rest ih =>
    intro s waiters h hv
    have harr : sfArrive now s c = { s with inFlight := some (waiters ++ [c]) } := by
      unfold sfArrive
      unfold sfCacheValid at hv
      split
      next token heq =>
        rw [heq] at hv
        rw [if_neg (of_decide_eq_false hv)]
        unfold sfJoin
        rw [h]
      next heq =>
        unfold sfJoin
        rw [h]
    show sfArrivals now rest (sfArrive now s c) = _
    rw [harr]
    rw [ih { s with inFlight := some (waiters ++ [c]) } (waiters ++ [c]) rfl]
    · simp
    · unfold sfCacheValid
      unfold sfCacheValid at hv
      exact hv

/-- C1: when N ≥ 1 callers arrive while no valid token is cached and no
acquisition is in flight, exactly one `obtainFreshToken` is started, and
on its completion every one of the N callers resolves with the access
token of that single shared acquisition. -/
theorem singleFlight_spec (now : JsNumber) (callers : List Nat) (s0 : SFState)
    (token : TokenCache)
    (hne : callers ≠ [])
    (hflight : s0.inFlight = none)
    (hcache : sfCacheValid now s0 = false) :
    (sfComplete token (sfArrivals now callers s0)).acquisitions = s0.acquisitions + 1 ∧
    (sfComplete token (sfArrivals now callers s0)).resolved =
      s0.resolved ++ callers.map (fun caller => (caller, token.accessToken)) ∧
    (sfComplete token (sfArrivals now callers s0)).inFlight = none ∧
    (sfComplete token (sfArrivals now callers s0)).cachedToken = some token := by
  obtain ⟨c, rest, rfl⟩ := List.exists_cons_of_ne_nil hne
  have harr1 : sfArrive now s0 c =
      { s0 with inFlight := some [c], acquisitions := s0.acquisitions + 1 } := by
    unfold sfArrive
    unfold sfCacheValid at hcache
    split
    next token heq =>
      rw [heq] at hcache
      rw [if_neg (of_decide_eq_false hcache)]
      unfold sfJoin
      rw [hflight]
    next heq =>
      unfold sfJoin
      rw [hflight]
  have hrest := sfArrivals_join now rest
    { s0 with inFlight := some [c], acquisitions := s0.acquisitions + 1 } [c] rfl
    (by unfold sfCacheValid; unfold sfCacheValid at hcache; exact hcache)
  have : sfArrivals now (c :: rest) s0 =
      { s0 with inFlight := some (c :: rest), acquisitions := s0.acquisitions + 1 } := by
    show sfArrivals now rest (sfArrive now s0 c) = _
    rw [harr1, hrest]
    simp
  rw [this]
  unfold sfComplete
  refine ⟨rfl, ?_, rfl, rfl⟩
  simp

theorem singleFlight_spec_witness :
    (sfComplete { accessToken := "tk", refreshToken := none, expiresAt := 1000 }
      (sfArrivals 0 [1, 2, 3]
        { cachedToken := none, inFlight := none, acquisitions := 0, resolved := [] })).acquisitions = 1 ∧
    (sfComplete { accessToken := "tk", refreshToken := none, expiresAt := 1000 }
      (sfArrivals 0 [1, 2, 3]
        { cachedToken := none, inFlight := none, acquisitions := 0, resolved := [] })).resolved =
      [(1, "tk"), (2, "tk"), (3, "tk")] := by
  have h := singleFlight_spec 0 [1, 2, 3]
    { cachedToken := none, inFlight := none, acquisitions := 0, resolved := [] }
    { accessToken := "tk", refreshToken := none, expiresAt := 1000 }
    (by decide) rfl (by decide)
  exact ⟨h.1, h.2.1.trans (by decide)⟩

theorem clampLimit_spec (q : JsNumber) (hq : 0 < q.den) :
    (1 ≤ clampLimit q ∧ clampLimit q ≤ 500) ∧
    clampLimit q = min 500 (max 1 q.floor) := by
  have hden : (0 : Int) < (q.den : Int) := by exact_mod_cast hq
  have hfd : q.floor = q.num / (q.den : Int) := Int.fdiv_eq_ediv q.num (le_of_lt hden)
  unfold clampLimit
  split
  next h =>
    have h' : q.num * 1 < 1 * (q.den : Int) := h
    clear h
    have hlt : q.num / (q.den : Int) < 1 :=
      (Int.ediv_lt_iff_lt_mul hden).mpr (by linarith)
    have hmax : max 1 q.floor = 1 := max_eq_left (by rw [hfd]; exact le_of_lt hlt)
    refine ⟨⟨le_refl _, by norm_num⟩, ?_⟩
    rw [hmax]
    norm_num
  next h =>
    have h' : 1 * (q.den : Int) ≤ q.num * 1 := Int.not_lt.mp h
    clear h
    split
    next h2 =>
      have h2' : (500 : Int) * (q.den : Int) < q.num * 1 := h2
      clear h2
      have hge : (500 : Int) ≤ q.num / (q.den : Int) :=
        (Int.le_ediv_iff_mul_le hden).mpr (by linarith)
      have hmax : max 1 q.floor = q.floor := max_eq_right (by rw [hfd]; linarith)
      refine ⟨⟨by norm_num [MAX_LIMIT], by norm_num [MAX_LIMIT]⟩, ?_⟩
      rw [hmax, hfd]
      have hmin : min 500 (q.num / (q.den : Int)) = 500 := min_eq_left hge
      rw [hmin]
      norm_num [MAX_LIMIT]
    next h2 =>
      have h2' : q.num * 1 ≤ (500 : Int) * (q.den : Int) := Int.not_lt.mp h2
      clear h2
      have hge1 : (1 : Int) ≤ q.num / (q.den : Int) :=
        (Int.le_ediv_iff_mul_le hden).mpr (by linarith)
      have hle500 : q.num / (q.den : Int) ≤ 500 := by
        have h501 : q.num / (q.den : Int) < 501 :=
          (Int.ediv_lt_iff_lt_mul hden).mpr (by linarith)
        linarith
      refine ⟨⟨by rw [hfd]; exact hge1, by rw [hfd]; exact hle500⟩, ?_⟩
      rw [hfd, max_eq_right hge1, min_eq_right hle500]

/-- C10: the page-size limit sent upstream is an integer in `[1, 500]`: a
finite numeric input is floored and clamped into that range, a numeric
string is parsed (`parseInt`) and clamped, and any other input yields the
default 50; every url the list route fetches carries exactly this
limit. -/
theorem parseLimit_spec :
    (∀ q : JsNumber, 0 < q.den →
      (1 ≤ parseLimit (some (JVal.numv q)) ∧ parseLimit (some (JVal.numv q)) ≤ 500) ∧
      parseLimit (some (JVal.numv q)) = min 500 (max 1 q.floor)) ∧
    (∀ s : String,
      parseLimit (some (JVal.strv s)) =
        (match jsParseInt s with
         | some n => clampLimit (JsNumber.ofInt n)
         | none => 50) ∧
      1 ≤ parseLimit (some (JVal.strv s)) ∧ parseLimit (some (JVal.strv s)) ≤ 500) ∧
    (∀ n : Int, clampLimit (JsNumber.ofInt n) = min 500 (max 1 n)) ∧
    parseLimit none = 50 ∧
    parseLimit (some JVal.nullv) = 50 ∧
    (∀ b, parseLimit (some (JVal.boolv b)) = 50) ∧
    (∀ xs, parseLimit (some (JVal.arrv xs)) = 50) ∧
    (∀ fs, parseLimit (some (JVal.objv fs)) = 50) ∧
    (∀ (env : Env) (bodyJ : JVal) (w : World), ∃ k,
      ((subaccountsPOST env (some bodyJ) w).2).resourceLog =
        w.resourceLog ++ List.replicate k
          (listRequestUrl (sanitiseBaseUrl (jGetField bodyJ "baseUrl"))
            (parseLimit (jGetField bodyJ "limit")) (trimmedSearchTerm bodyJ))) := by
  have hofInt : ∀ n : Int, (JsNumber.ofInt n).floor = n := by
    intro n
    show Int.fdiv n 1 = n
    exact Int.fdiv_one n
  refine ⟨?_, ?_, ?_, rfl, rfl, fun b => rfl, fun xs => rfl, fun fs => rfl, ?_⟩
  · intro q hq
    exact clampLimit_spec q hq
  · intro s
    refine ⟨rfl, ?_⟩
    rcases hj : jsParseInt s with _ | n
    · simp only [parseLimit, hj]
      exact ⟨by norm_num [DEFAULT_LIMIT], by norm_num [DEFAULT_LIMIT]⟩
    · simp only [parseLimit, hj]
      exact (clampLimit_spec (JsNumber.ofInt n) Nat.one_pos).1
  · intro n
    have h := (clampLimit_spec (JsNumber.ofInt n) Nat.one_pos).2
    rw [hofInt] at h
    exact h
  · intro env bodyJ w
    unfold subaccountsPOST
    dsimp only
    rcases hg : getPrivateAccessToken env w with ⟨r1, w1⟩
    have hw1 : w1.resourceLog = w.resourceLog := by
      have h := getPrivateAccessToken_log env w
      rw [hg] at h
      exact h
    cases r1 with
    | error msg => exact ⟨0, by simpa using hw1⟩
    | ok tok =>
      dsimp only [resourceFetch]
      cases hnet : env.net tok (listRequestUrl (sanitiseBaseUrl (jGetField bodyJ "baseUrl"))
          (parseLimit (jGetField bodyJ "limit")) (trimmedSearchTerm bodyJ)) with
      | netError m => exact ⟨1, by simp [hw1]⟩
      | http st b =>
        dsimp only
        split
        next hauth =>
          rcases hg2 : getPrivateAccessToken env (invalidatePrivateAccessToken
              { w1 with resourceLog := w1.resourceLog ++
                  [listRequestUrl (sanitiseBaseUrl (jGetField bodyJ "baseUrl"))
                    (parseLimit (jGetField bodyJ "limit")) (trimmedSearchTerm bodyJ)] })
            with ⟨r2, w3⟩
          have hw3 : w3.resourceLog = w1.resourceLog ++
              [listRequestUrl (sanitiseBaseUrl (jGetField bodyJ "baseUrl"))
                (parseLimit (jGetField bodyJ "limit")) (trimmedSearchTerm bodyJ)] := by
            have h := getPrivateAccessToken_log env (invalidatePrivateAccessToken
              { w1 with resourceLog := w1.resourceLog ++
                  [listRequestUrl (sanitiseBaseUrl (jGetField bodyJ "baseUrl"))
                    (parseLimit (jGetField bodyJ "limit")) (trimmedSearchTerm bodyJ)] })
            rw [hg2] at h
            exact h
          cases r2 with
          | error msg => exact ⟨1, by simp [hw3, hw1]⟩
          | ok tok2 =>
            dsimp only [resourceFetch]
            cases hnet2 : env.net tok2 (listRequestUrl (sanitiseBaseUrl (jGetField bodyJ "baseUrl"))
                (parseLimit (jGetField bodyJ "limit")) (trimmedSearchTerm bodyJ)) with
            | http st2 b2 => exact ⟨2, by simp [hw3, hw1, List.replicate]⟩
            | netError m2 => exact ⟨2, by simp [hw3, hw1, List.replicate]⟩
        next hauth => exact ⟨1, by simp [hw1]⟩

theorem parseLimit_spec_witness :
    0 < (JsNumber.mk 7 2).den ∧ parseLimit (some (JVal.numv (JsNumber.mk 7 2))) = 3 := by
  have h := (parseLimit_spec.1 (JsNumber.mk 7 2) (by decide)).2
  exact ⟨by decide, h.trans (by decide)⟩

/-- C9: a response body that is not valid JSON is handled exactly like an
absent body and never raises: the token request and the list route behave
identically on a malformed and on an empty body, and a prober attempt
built from a malformed body has the same `ok`/`status`/`message`/`url`
as one built from an empty body, its payload being treated as absent by
every consumer (`isRecord` is false, `extractMeta` and the truthy
`message` lookup yield nothing). -/
theorem malformedBody_spec :
    (∀ (env : Env) (grant : Grant) (base : World) (st : Int) (raw : String)
        (rest : List FetchOutcome),
      env.clientId.isSome → env.clientSecret.isSome →
      performTokenRequest env grant
          { base with tokenResponses := FetchOutcome.http st (BodyR.malformed raw) :: rest } =
        performTokenRequest env grant
          { base with tokenResponses := FetchOutcome.http st BodyR.empty :: rest }) ∧
    (∀ (st : Int) (raw : String) (limit : Int) (term b u : String),
      finishList st (BodyR.malformed raw) limit term b u =
        finishList st BodyR.empty limit term b u) ∧
    (∀ (baseUrl path : String) (st : Int) (raw : String),
      (attemptOfOutcome baseUrl path (FetchOutcome.http st (BodyR.malformed raw))).ok =
        (attemptOfOutcome baseUrl path (FetchOutcome.http st BodyR.empty)).ok ∧
      (attemptOfOutcome baseUrl path (FetchOutcome.http st (BodyR.malformed raw))).status =
        (attemptOfOutcome baseUrl path (FetchOutcome.http st BodyR.empty)).status ∧
      (attemptOfOutcome baseUrl path (FetchOutcome.http st (BodyR.malformed raw))).message =
        (attemptOfOutcome baseUrl path (FetchOutcome.http st BodyR.empty)).message ∧
      (attemptOfOutcome baseUrl path (FetchOutcome.http st (BodyR.malformed raw))).url =
        (attemptOfOutcome baseUrl path (FetchOutcome.http st BodyR.empty)).url ∧
      isRecordJ (attemptOfOutcome baseUrl path (FetchOutcome.http st (BodyR.malformed raw))).payload = false ∧
      extractMetaCV (attemptOfOutcome baseUrl path (FetchOutcome.http st (BodyR.malformed raw))).payload = none ∧
      truthyMessage (attemptOfOutcome baseUrl path (FetchOutcome.http st (BodyR.malformed raw))).payload = none) := by
  refine ⟨?_, ?_, ?_⟩
  · intro env grant base st raw rest hci hcs
    unfold performTokenRequest
    split
    next hcond =>
      rw [Bool.or_eq_true] at hcond
      rcases hcond with hc | hc
      · rw [Option.isNone_iff_eq_none] at hc
        rw [hc] at hci
        simp at hci
      · rw [Option.isNone_iff_eq_none] at hc
        rw [hc] at hcs
        simp at hcs
    · dsimp only [List.headD, List.tail, tokenPayloadOfBody]
  · intro st raw limit term b u
    unfold finishList
    dsimp only [listPayloadOfBody]
  · intro baseUrl path st raw
    unfold attemptOfOutcome
    dsimp only [cvPayloadOfBody]
    split
    next h =>
      simp [buildAttempt, truthyMessage, jGetField, extractMetaCV, isRecordJ]
    next h =>
      simp [buildAttempt, truthyMessage, jGetField, extractMetaCV, isRecordJ]

theorem malformedBody_spec_witness :
    performTokenRequest envC4 (Grant.refresh "r0")
        { emptyWorld with tokenResponses := [FetchOutcome.http 200 (BodyR.malformed "not json")] } =
      performTokenRequest envC4 (Grant.refresh "r0")
        { emptyWorld with tokenResponses := [FetchOutcome.http 200 BodyR.empty] } := by
  exact malformedBody_spec.1 envC4 (Grant.refresh "r0") emptyWorld 200 "not json" [] rfl rfl

/-- C3: on a 401/403 first response the list route invalidates the token
cache, acquires a fresh token (the acquirer now having run exactly twice
from a cold cache), and retries the identical request exactly once; the
retry's outcome is processed exactly as a first response would be (a 2xx
is the returned success, any other status — including a second 401/403 —
is surfaced with that status), and the cache ends up holding the retried
token. -/
theorem dispatchRetry_spec (env : Env) (bodyJ : JVal) (w w1 w3 : World)
    (a1 a2 url : String) (st1 st2 : Int) (b1 b2 : BodyR)
    (hurl : url = listRequestUrl (sanitiseBaseUrl (jGetField bodyJ "baseUrl"))
      (parseLimit (jGetField bodyJ "limit")) (trimmedSearchTerm bodyJ))
    (hcold : w.cachedToken = none)
    (hget1 : getPrivateAccessToken env w = (Except.ok a1, w1))
    (hnet1 : env.net a1 url = FetchOutcome.http st1 b1)
    (hauth : st1 = 401 ∨ st1 = 403)
    (hget2 : getPrivateAccessToken env
        (invalidatePrivateAccessToken { w1 with resourceLog := w1.resourceLog ++ [url] }) =
      (Except.ok a2, w3))
    (hnet2 : env.net a2 url = FetchOutcome.http st2 b2) :
    subaccountsPOST env (some bodyJ) w =
      (finishList st2 b2 (parseLimit (jGetField bodyJ "limit")) (trimmedSearchTerm bodyJ)
        (sanitiseBaseUrl (jGetField bodyJ "baseUrl")) url,
       { w3 with resourceLog := w3.resourceLog ++ [url] }) ∧
    (∃ tok2 : TokenCache, w3.cachedToken = some tok2 ∧ tok2.accessToken = a2) ∧
    w3.acquisitions = w.acquisitions + 2 ∧
    w3.resourceLog ++ [url] = w.resourceLog ++ [url, url] ∧
    ((200 ≤ st2 ∧ st2 < 300) →
      (subaccountsPOST env (some bodyJ) w).1 =
        ListResponse.success (listPayloadOfBody b2) (parseLimit (jGetField bodyJ "limit"))
          (trimmedSearchTerm bodyJ) (sanitiseBaseUrl (jGetField bodyJ "baseUrl")) url) ∧
    (¬(200 ≤ st2 ∧ st2 < 300) → ∃ msg,
      (subaccountsPOST env (some bodyJ) w).1 = ListResponse.upstreamFailure msg st2) := by
  subst hurl
  have hlog1 : w1.resourceLog = w.resourceLog := by
    have h := getPrivateAccessToken_log env w
    rw [hget1] at h
    exact h
  have hacq1 : w1.acquisitions = w.acquisitions + 1 := by
    have h := getPrivateAccessToken_acq_miss env w hcold
    rw [hget1] at h
    exact h
  have hlog3 : w3.resourceLog = w1.resourceLog ++
      [listRequestUrl (sanitiseBaseUrl (jGetField bodyJ "baseUrl"))
        (parseLimit (jGetField bodyJ "limit")) (trimmedSearchTerm bodyJ)] := by
    have h := getPrivateAccessToken_log env
      (invalidatePrivateAccessToken { w1 with resourceLog := w1.resourceLog ++
        [listRequestUrl (sanitiseBaseUrl (jGetField bodyJ "baseUrl"))
          (parseLimit (jGetField bodyJ "limit")) (trimmedSearchTerm bodyJ)] })
    rw [hget2] at h
    exact h
  have hacq3 : w3.acquisitions = w1.acquisitions + 1 := by
    have h := getPrivateAccessToken_acq_miss env
      (invalidatePrivateAccessToken { w1 with resourceLog := w1.resourceLog ++
        [listRequestUrl (sanitiseBaseUrl (jGetField bodyJ "baseUrl"))
          (parseLimit (jGetField bodyJ "limit")) (trimmedSearchTerm bodyJ)] }) rfl
    rw [hget2] at h
    exact h
  have hmain : subaccountsPOST env (some bodyJ) w =
      (finishList st2 b2 (parseLimit (jGetField bodyJ "limit")) (trimmedSearchTerm bodyJ)
        (sanitiseBaseUrl (jGetField bodyJ "baseUrl"))
        (listRequestUrl (sanitiseBaseUrl (jGetField bodyJ "baseUrl"))
          (parseLimit (jGetField bodyJ "limit")) (trimmedSearchTerm bodyJ)),
       { w3 with resourceLog := w3.resourceLog ++
          [listRequestUrl (sanitiseBaseUrl (jGetField bodyJ "baseUrl"))
            (parseLimit (jGetField bodyJ "limit")) (trimmedSearchTerm bodyJ)] }) := by
    unfold subaccountsPOST
    dsimp only
    rw [hget1]
    dsimp only [resourceFetch]
    rw [hnet1]
    dsimp only
    rw [if_pos hauth, hget2]
    dsimp only [resourceFetch]
    rw [hnet2]
  refine ⟨hmain, ?_, ?_, ?_, ?_, ?_⟩
  · exact getPrivateAccessToken_ok_cache_miss env
      (invalidatePrivateAccessToken { w1 with resourceLog := w1.resourceLog ++
        [listRequestUrl (sanitiseBaseUrl (jGetField bodyJ "baseUrl"))
          (parseLimit (jGetField bodyJ "limit")) (trimmedSearchTerm bodyJ)] }) a2 w3 rfl hget2
  · rw [hacq3, hacq1]
  · rw [hlog3, hlog1]
    simp
  · intro h2xx
    rw [hmain]
    unfold finishList
    dsimp only [listPayloadOfBody]
    rw [if_neg (not_not_intro h2xx)]
  · intro hfail
    rw [hmain]
    unfold finishList
    dsimp only
    rw [if_pos hfail]
    exact ⟨_, rfl⟩

theorem dispatchRetry_spec_witness :
    ((subaccountsPOST envC3 (some (JVal.objv [])) wC3).2).acquisitions = wC3.acquisitions + 2 ∧
    ((subaccountsPOST envC3 (some (JVal.objv [])) wC3).2).resourceLog =
      wC3.resourceLog ++ [urlC3, urlC3] ∧
    (subaccountsPOST envC3 (some (JVal.objv [])) wC3).1 =
      ListResponse.success (JVal.objv [("locations", JVal.arrv [])]) 50 ""
        DEFAULT_GHL_BASE_URL urlC3 := by
  have h := dispatchRetry_spec envC3 (JVal.objv []) wC3
    (getPrivateAccessToken envC3 wC3).2
    (getPrivateAccessToken envC3 (invalidatePrivateAccessToken
      { (getPrivateAccessToken envC3 wC3).2 with resourceLog :=
          (getPrivateAccessToken envC3 wC3).2.resourceLog ++ [urlC3] })).2
    "t1" "t2" urlC3 401 200 BodyR.empty
    (BodyR.parsed (JVal.objv [("locations", JVal.arrv [])]))
    (by rfl) rfl (by rfl) (by rfl) (Or.inl rfl) (by rfl) (by rfl)
  refine ⟨?_, ?_, ?_⟩
  · rw [h.1]
    exact h.2.2.1
  · rw [h.1]
    exact h.2.2.2.1
  · exact h.2.2.2.2.1 (by decide)

theorem ensureLeadingSlash_idem (p : String) :
    ensureLeadingSlash (ensureLeadingSlash p) = ensureLeadingSlash p := by
  unfold ensureLeadingSlash
  split
  next h => rfl
  next h =>
    have : hasLeadingSlash ("/" ++ p) = true := by
      unfold hasLeadingSlash
      have : ("/" ++ p).data = '/' :: p.data := rfl
      rw [this]
      simp
    rw [if_pos this]

theorem pureFetch_url (env : Env) (tok base path : String) :
    (pureFetch env tok base path).url = attemptUrl base path := by
  unfold pureFetch attemptOfOutcome
  cases env.net tok (attemptUrl base path) with
  | netError m =>
    dsimp only [buildAttempt]
    unfold attemptUrl
    rw [ensureLeadingSlash_idem]
  | http st b =>
    dsimp only
    split
    · dsimp only [buildAttempt]
      unfold attemptUrl
      rw [ensureLeadingSlash_idem]
    · dsimp only [buildAttempt]
      unfold attemptUrl
      rw [ensureLeadingSlash_idem]

theorem uniqueAux_sublist :
    ∀ (l : List FetchAttemptResult) (seen : List String), List.Sublist (uniqueAux l seen) l := by
  intro l
  induction l with
  | nil => intro seen; simp [uniqueAux]
  | cons a rest ih =>
    intro seen
    unfold uniqueAux
    split
    · exact List.Sublist.cons a (ih seen)
    · exact List.Sublist.cons₂ a (ih _)

theorem uniqueAux_nodup :
    ∀ (l : List FetchAttemptResult) (seen : List String),
      ((uniqueAux l seen).map (fun a => a.url)).Nodup ∧
      (∀ a ∈ uniqueAux l seen, a.url ∉ seen) := by
  intro l
  induction l with
  | nil => intro seen; exact ⟨List.nodup_nil, by simp [uniqueAux]⟩
  | cons a rest ih =>
    intro seen
    unfold uniqueAux
    split
    next h => exact ih seen
    next h =>
      obtain ⟨hnd, hms⟩ := ih (a.url :: seen)
      constructor
      · dsimp only [List.map]
        rw [List.nodup_cons]
        constructor
        · intro hmem
          rw [List.mem_map] at hmem
          obtain ⟨b, hb, hbe⟩ := hmem
          exact (hms b hb) (by rw [hbe]; exact List.mem_cons_self _ _)
        · exact hnd
      · intro b hb
        rcases List.mem_cons.mp hb with rfl | hb'
        · exact h
        · intro hbs
          exact (hms b hb') (List.mem_cons_of_mem _ hbs)

theorem uniqueAux_complete :
    ∀ (l : List FetchAttemptResult) (seen : List String) (a : FetchAttemptResult),
      a ∈ l → a.url ∈ seen ∨ a.url ∈ (uniqueAux l seen).map (fun x => x.url) := by
  intro l
  induction l with
  | nil => intro seen a ha; cases ha
  | cons b rest ih =>
    intro seen a ha
    unfold uniqueAux
    split
    next h =>
      rcases List.mem_cons.mp ha with rfl | ha'
      · exact Or.inl h
      · exact ih seen a ha'
    next h =>
      rcases List.mem_cons.mp ha with rfl | ha'
      · right
        exact List.mem_map_of_mem _ (List.mem_cons_self _ _)
      · rcases ih (b.url :: seen) a ha' with hs | hu
        · rcases List.mem_cons.mp hs with he | hs'
          · right
            rw [he]
            exact List.mem_map_of_mem _ (List.mem_cons_self _ _)
          · exact Or.inl hs'
        · right
          dsimp only [List.map]
          exact List.mem_cons_of_mem _ hu

theorem probeLoop_all404 (env : Env) (loc base tok : String) :
    ∀ (pats : List (String → String)) (acc : List FetchAttemptResult) (w : World),
      (∀ p ∈ pats, (probeF env tok base loc p).status = 404 ∧ (probeF env tok base loc p).ok = false) →
      probeLoop env loc base tok pats acc w =
        ((none, acc ++ pats.map (probeF env tok base loc)),
         { w with resourceLog := w.resourceLog ++ pats.map (fun p => attemptUrl base (p loc)) }) := by
  intro pats
  induction pats with
  | nil =>
    intro acc w h
    simp [probeLoop]
  | cons p rest ih =>
    intro acc w h
    have hp := h p (List.mem_cons_self _ _)
    dsimp only [probeF] at hp
    unfold probeLoop
    dsimp only [fetchCustomValues]
    rw [if_neg (by rw [hp.2]; simp), if_neg (by rw [hp.1]; decide),
      if_neg (by rw [hp.1]; simp)]
    rw [ih (acc ++ [pureFetch env tok base (p loc)])
      { w with resourceLog := w.resourceLog ++ [attemptUrl base (p loc)] }
      (fun q hq => h q (List.mem_cons_of_mem _ hq))]
    simp [probeF]

theorem cvLoop_all404 (env : Env) (loc tok : String)
    (h404 : ∀ base p, (probeF env tok base loc p).status = 404 ∧ (probeF env tok base loc p).ok = false) :
    ∀ (bases : List String) (acc : List FetchAttemptResult) (ru : Bool) (w : World),
      cvLoop env loc bases tok acc ru w =
        (cvEmptyResponse
          (acc ++ List.flatMap bases (fun base => PATH_PATTERNS.map (probeF env tok base loc))),
         { w with resourceLog := w.resourceLog ++
            List.flatMap bases (fun base => PATH_PATTERNS.map (fun p => attemptUrl base (p loc))) }) := by
  intro bases
  induction bases with
  | nil =>
    intro acc ru w
    simp [cvLoop]
  | cons base rest ih =>
    intro acc ru w
    have hall : ∀ p ∈ PATH_PATTERNS,
        (probeF env tok base loc p).status = 404 ∧ (probeF env tok base loc p).ok = false :=
      fun p _ => h404 base p
    unfold cvLoop
    dsimp only [requestCustomValuesForBase]
    rw [probeLoop_all404 env loc base tok PATH_PATTERNS [] w hall]
    dsimp only
    simp only [List.nil_append]
    have hunauth : (List.map (probeF env tok base loc) PATH_PATTERNS).any
        (fun a => a.status == 401 || a.status == 403) = false := by
      rw [List.any_eq_false]
      intro a ha
      rw [List.mem_map] at ha
      obtain ⟨p, hp, rfl⟩ := ha
      rw [(h404 base p).1]
      decide
    have hno0 : (List.map (probeF env tok base loc) PATH_PATTERNS).any
        (fun a => a.status == 0) = false := by
      rw [List.any_eq_false]
      intro a ha
      rw [List.mem_map] at ha
      obtain ⟨p, hp, rfl⟩ := ha
      rw [(h404 base p).1]
      decide
    have hfind : (List.map (probeF env tok base loc) PATH_PATTERNS).find?
        (fun a => a.status != 404) = none := by
      rw [List.find?_eq_none]
      intro a ha
      rw [List.mem_map] at ha
      obtain ⟨p, hp, rfl⟩ := ha
      rw [(h404 base p).1]
      decide
    rw [hunauth]
    rw [if_neg (by simp)]
    unfold cvStep cvFailResponse
    rw [hno0]
    rw [if_neg (by simp)]
    rw [hfind]
    dsimp only
    rw [ih (acc ++ List.map (probeF env tok base loc) PATH_PATTERNS) ru
      { w with resourceLog := w.resourceLog ++
          List.map (fun p => attemptUrl base (p loc)) PATH_PATTERNS }]
    simp

/-- C6: with every pattern returning 404 on every host, the custom-values
operation ends in the non-error empty result with `customValues = []` and
`count = 0`, whose diagnostic trail lists the attempted urls in request
order with no duplicates and covers every attempted url; the alternate
canonical host is probed exactly when the primary base is one of the two
canonical hosts. -/
theorem allNotFound_spec (env : Env) (locationId : String) (reqBody : Option JVal)
    (w w1 : World) (a1 : String)
    (hloc : ¬locationId = "")
    (h404 : ∀ tok url, ∃ b, env.net tok url = FetchOutcome.http 404 b)
    (hget : getPrivateAccessToken env w = (Except.ok a1, w1)) :
    (∃ warning srcUrl trail,
      (customValuesPOST env locationId reqBody w).1 =
        CVResponse.emptyResult [] 0 warning srcUrl
          (urlsOf trail) (baseUrlsOf trail) (pathsOf trail) ∧
      (urlsOf trail).Nodup ∧
      (∀ base ∈ candidateBases
          (sanitiseBaseUrl (jGetField (reqBody.getD (JVal.objv [])) "baseUrl")),
        ∀ p ∈ PATH_PATTERNS, attemptUrl base (p locationId) ∈ urlsOf trail) ∧
      List.Sublist trail
        (List.flatMap
          (candidateBases (sanitiseBaseUrl (jGetField (reqBody.getD (JVal.objv [])) "baseUrl")))
          (fun base => PATH_PATTERNS.map (probeF env a1 base locationId)))) ∧
    candidateBases DEFAULT_GHL_BASE_URL = [DEFAULT_GHL_BASE_URL, LEADCONNECTOR_BASE_URL] ∧
    candidateBases LEADCONNECTOR_BASE_URL = [LEADCONNECTOR_BASE_URL, DEFAULT_GHL_BASE_URL] ∧
    (∀ b, ¬b = DEFAULT_GHL_BASE_URL → ¬b = LEADCONNECTOR_BASE_URL →
      candidateBases b = [b]) := by
  have hPF : ∀ base p, (probeF env a1 base locationId p).status = 404 ∧
      (probeF env a1 base locationId p).ok = false := by
    intro base p
    obtain ⟨b, hb⟩ := h404 a1 (attemptUrl base (p locationId))
    unfold probeF pureFetch
    rw [hb]
    unfold attemptOfOutcome
    dsimp only
    rw [if_pos (by decide)]
    exact ⟨rfl, rfl⟩
  refine ⟨?_, ?_, ?_, ?_⟩
  · unfold customValuesPOST
    rw [if_neg hloc]
    dsimp only
    rw [hget]
    dsimp only
    rw [cvLoop_all404 env locationId a1 hPF
      (candidateBases (sanitiseBaseUrl (jGetField (reqBody.getD (JVal.objv [])) "baseUrl")))
      [] false w1]
    dsimp only
    rw [List.nil_append]
    refine ⟨_, _, uniqueAttempts
      (List.flatMap
        (candidateBases (sanitiseBaseUrl (jGetField (reqBody.getD (JVal.objv [])) "baseUrl")))
        (fun base => PATH_PATTERNS.map (probeF env a1 base locationId))), rfl, ?_, ?_, ?_⟩
    · exact (uniqueAux_nodup _ []).1
    · intro base hbase p hp
      have hmem : probeF env a1 base locationId p ∈
          List.flatMap
            (candidateBases (sanitiseBaseUrl (jGetField (reqBody.getD (JVal.objv [])) "baseUrl")))
            (fun b0 => PATH_PATTERNS.map (probeF env a1 b0 locationId)) := by
        rw [List.mem_flatMap]
        exact ⟨base, hbase, List.mem_map_of_mem _ hp⟩
      rcases uniqueAux_complete _ [] _ hmem with hs | hu
      · cases hs
      · have hurl : (probeF env a1 base locationId p).url = attemptUrl base (p locationId) :=
          pureFetch_url env a1 base (p locationId)
        rw [hurl] at hu
        exact hu
    · exact uniqueAux_sublist _ []
  · unfold candidateBases
    rw [if_pos rfl]
  · unfold candidateBases
    rw [if_neg (by decide), if_pos rfl]
  · intro b hb1 hb2
    unfold candidateBases
    rw [if_neg hb1, if_neg hb2]

theorem allNotFound_spec_witness :
    ∃ warning srcUrl trail,
      (customValuesPOST envC6 "loc1" (some (JVal.objv [])) wC6).1 =
        CVResponse.emptyResult [] 0 warning srcUrl
          (urlsOf trail) (baseUrlsOf trail) (pathsOf trail) ∧
      (urlsOf trail).Nodup := by
  obtain ⟨wrn, src, trail, heq, hnd, _, _⟩ :=
    (allNotFound_spec envC6 "loc1" (some (JVal.objv [])) wC6
      (getPrivateAccessToken envC6 wC6).2 "t1" (by decide)
      (fun t u => ⟨BodyR.empty, rfl⟩) (by rfl)).1
  exact ⟨wrn, src, trail, heq, hnd⟩

/-- C2 counterexample: with the first pattern answering 401 under the
initial token and the re-probe (after the route's token refresh) hitting
404 then 200, the operation does NOT stop at the non-404, non-2xx
attempt and does NOT surface that failure: it retries the same host and
returns a success whose trail records two further attempts after the
401.  This refutes the claim that any non-404, non-2xx status stops the
probe immediately and is surfaced to the caller. -/
theorem proberStop_counterexample :
    (customValuesPOST envC2x "loc1" (some (JVal.objv [])) wC2x).1 =
      CVResponse.success JVal.nullv none
        "https://rest.gohighlevel.com/v1/customValues/location/loc1"
        "https://rest.gohighlevel.com/v1"
        ["https://rest.gohighlevel.com/v1/locations/loc1/customValues",
         "https://rest.gohighlevel.com/v1/locations/loc1/customValues",
         "https://rest.gohighlevel.com/v1/customValues/location/loc1"]
        ["https://rest.gohighlevel.com/v1", "https://rest.gohighlevel.com/v1",
         "https://rest.gohighlevel.com/v1"]
        ["/locations/loc1/customValues", "/locations/loc1/customValues",
         "/customValues/location/loc1"] ∧
    ((customValuesPOST envC2x "loc1" (some (JVal.objv [])) wC2x).2).resourceLog =
      ["https://rest.gohighlevel.com/v1/locations/loc1/customValues",
       "https://rest.gohighlevel.com/v1/locations/loc1/customValues",
       "https://rest.gohighlevel.com/v1/customValues/location/loc1"] := by
  exact ⟨rfl, rfl⟩

theorem probeLoop_spec (env : Env) (loc base tok : String) :
    ∀ (pats : List (String → String)) (acc : List FetchAttemptResult) (w : World),
      (∃ pre pat rest,
        pats = pre ++ pat :: rest ∧
        (probeLoop env loc base tok pats acc w).1.2 =
          acc ++ pre.map (probeF env tok base loc) ++ [probeF env tok base loc pat] ∧
        (∀ p ∈ pre, (probeF env tok base loc p).status = 404 ∧
          (probeF env tok base loc p).ok = false) ∧
        (((probeLoop env loc base tok pats acc w).1.1 = some (probeF env tok base loc pat) ∧
            (probeF env tok base loc pat).ok = true) ∨
         ((probeLoop env loc base tok pats acc w).1.1 = none ∧
            (probeF env tok base loc pat).ok = false ∧
            ¬(probeF env tok base loc pat).status = 404)))
      ∨ ((probeLoop env loc base tok pats acc w).1.1 = none ∧
         (probeLoop env loc base tok pats acc w).1.2 =
           acc ++ pats.map (probeF env tok base loc) ∧
         ∀ p ∈ pats, (probeF env tok base loc p).status = 404 ∧
           (probeF env tok base loc p).ok = false) := by
  intro pats
  induction pats with
  | nil =>
    intro acc w
    right
    refine ⟨rfl, by simp [probeLoop], ?_⟩
    intro p hp
    cases hp
  | cons p rest ih =>
    intro acc w
    unfold probeLoop
    dsimp only [fetchCustomValues]
    by_cases hok : (pureFetch env tok base (p loc)).ok = true
    · rw [if_pos hok]
      left
      exact ⟨[], p, rest, rfl, by simp [probeF], by simp, Or.inl ⟨rfl, hok⟩⟩
    · rw [if_neg hok]
      have hokf : (pureFetch env tok base (p loc)).ok = false := by
        revert hok
        cases (pureFetch env tok base (p loc)).ok <;> simp
      by_cases h0 : (pureFetch env tok base (p loc)).status = 0
      · rw [if_pos h0]
        left
        refine ⟨[], p, rest, rfl, by simp [probeF], by simp, Or.inr ⟨rfl, hokf, ?_⟩⟩
        dsimp only [probeF]
        rw [h0]
        decide
      · rw [if_neg h0]
        by_cases h404 : (pureFetch env tok base (p loc)).status ≠ 404
        · rw [if_pos h404]
          left
          exact ⟨[], p, rest, rfl, by simp [probeF], by simp, Or.inr ⟨rfl, hokf, h404⟩⟩
        · rw [if_neg h404]
          have hst : (pureFetch env tok base (p loc)).status = 404 := not_not.mp h404
          rcases ih (acc ++ [pureFetch env tok base (p loc)])
              { w with resourceLog := w.resourceLog ++ [attemptUrl base (p loc)] }
            with ⟨pre, pat, rest', heq, hatt, hpre, hres⟩ | ⟨hs, hatt, hall⟩
          · left
            refine ⟨p :: pre, pat, rest', by rw [heq]; rfl, ?_, ?_, hres⟩
            · rw [hatt]
              simp [probeF]
            · intro q hq
              rcases List.mem_cons.mp hq with rfl | hq'
              · exact ⟨by simpa [probeF] using hst, by simpa [probeF] using hokf⟩
              · exact hpre q hq'
          · right
            refine ⟨hs, ?_, ?_⟩
            · rw [hatt]
              simp [probeF]
            · intro q hq
              rcases List.mem_cons.mp hq with rfl | hq'
              · exact ⟨by simpa [probeF] using hst, by simpa [probeF] using hokf⟩
              · exact hall q hq'

/-- C2 (amended): (1) the prober tries a host's patterns in order: every
attempt before the last is a 404, the first 2xx attempt is the returned
success, and a non-404, non-2xx attempt (including a status-0 network
failure) ends the probe with no success and no further pattern; (2) once
a token is held, the operation is exactly the host loop over
`candidateBases`; (3) at any position of that loop — primary or
alternate host, retry spent or not — a probe that fails with some
non-404, non-0 attempt and holds no 401/403 attempt (or the retry is
already spent, which is how a 401/403 seen after the single retry is
surfaced as-is with its own status) returns the first such attempt's
message and status immediately, probing no further host; (4) likewise,
at any position, a failed probe whose attempts include a status-0
network failure returns the 502 network-failure response carrying the
first such attempt's message immediately, probing no further host; (5) a
probe that fails with some 401/403 attempt while the retry is unused
instead invalidates the cache, acquires a fresh token once, and
re-probes the same host from the first pattern, the re-probe's outcome
then being evaluated normally before any remaining host. -/
theorem proberStop_amended_spec :
    (∀ (env : Env) (loc base tok : String) (w : World),
      (∃ pre pat rest,
        PATH_PATTERNS = pre ++ pat :: rest ∧
        (requestCustomValuesForBase env loc base tok w).1.2 =
          pre.map (probeF env tok base loc) ++ [probeF env tok base loc pat] ∧
        (∀ p ∈ pre, (probeF env tok base loc p).status = 404 ∧
          (probeF env tok base loc p).ok = false) ∧
        (((requestCustomValuesForBase env loc base tok w).1.1 =
              some (probeF env tok base loc pat) ∧
            (probeF env tok base loc pat).ok = true) ∨
         ((requestCustomValuesForBase env loc base tok w).1.1 = none ∧
            (probeF env tok base loc pat).ok = false ∧
            ¬(probeF env tok base loc pat).status = 404)))
      ∨ ((requestCustomValuesForBase env loc base tok w).1.1 = none ∧
         (requestCustomValuesForBase env loc base tok w).1.2 =
           PATH_PATTERNS.map (probeF env tok base loc) ∧
         ∀ p ∈ PATH_PATTERNS, (probeF env tok base loc p).status = 404 ∧
           (probeF env tok base loc p).ok = false)) ∧
    (∀ (env : Env) (locationId : String) (reqBody : Option JVal) (w w1 : World)
        (a1 : String),
      ¬locationId = "" →
      getPrivateAccessToken env w = (Except.ok a1, w1) →
      customValuesPOST env locationId reqBody w =
        cvLoop env locationId
          (candidateBases (sanitiseBaseUrl (jGetField (reqBody.getD (JVal.objv [])) "baseUrl")))
          a1 [] false w1) ∧
    (∀ (env : Env) (locationId base : String) (rest : List String) (token : String)
        (allAtts : List FetchAttemptResult) (retryUsed : Bool) (w w2 : World)
        (atts : List FetchAttemptResult) (aFail : FetchAttemptResult),
      requestCustomValuesForBase env locationId base token w = ((none, atts), w2) →
      (atts.any (fun a => a.status == 401 || a.status == 403) = false ∨ retryUsed = true) →
      atts.any (fun a => a.status == 0) = false →
      atts.find? (fun a => a.status != 404) = some aFail →
      cvLoop env locationId (base :: rest) token allAtts retryUsed w =
        (CVResponse.upstreamFailure aFail.message aFail.status
          (urlsOf (allAtts ++ atts)) (baseUrlsOf (allAtts ++ atts)) (pathsOf (allAtts ++ atts)),
         w2)) ∧
    (∀ (env : Env) (locationId base : String) (rest : List String) (token : String)
        (allAtts : List FetchAttemptResult) (retryUsed : Bool) (w w2 : World)
        (atts : List FetchAttemptResult) (aNet : FetchAttemptResult),
      requestCustomValuesForBase env locationId base token w = ((none, atts), w2) →
      (atts.any (fun a => a.status == 401 || a.status == 403) = false ∨ retryUsed = true) →
      atts.any (fun a => a.status == 0) = true →
      atts.find? (fun a => a.status == 0) = some aNet →
      cvLoop env locationId (base :: rest) token allAtts retryUsed w =
        (CVResponse.networkFailure aNet.message
          (urlsOf (allAtts ++ atts)) (baseUrlsOf (allAtts ++ atts)) (pathsOf (allAtts ++ atts)),
         w2)) ∧
    (∀ (env : Env) (locationId base : String) (rest : List String) (token : String)
        (allAtts : List FetchAttemptResult) (w w2 : World) (atts : List FetchAttemptResult),
      requestCustomValuesForBase env locationId base token w = ((none, atts), w2) →
      atts.any (fun a => a.status == 401 || a.status == 403) = true →
      cvLoop env locationId (base :: rest) token allAtts false w =
        (match getPrivateAccessToken env (invalidatePrivateAccessToken w2) with
         | (Except.error msg, w3) =>
           (CVResponse.tokenFailureWithTrail msg (urlsOf (allAtts ++ atts))
             (baseUrlsOf (allAtts ++ atts)) (pathsOf (allAtts ++ atts)), w3)
         | (Except.ok token2, w3) =>
           match cvStep (requestCustomValuesForBase env locationId base token2 w3).1.1
               (requestCustomValuesForBase env locationId base token2 w3).1.2
               ((allAtts ++ atts) ++
                 (requestCustomValuesForBase env locationId base token2 w3).1.2) with
           | some resp => (resp, (requestCustomValuesForBase env locationId base token2 w3).2)
           | none =>
             cvLoop env locationId rest token2
               ((allAtts ++ atts) ++
                 (requestCustomValuesForBase env locationId base token2 w3).1.2)
               true
               (requestCustomValuesForBase env locationId base token2 w3).2)) := by
  refine ⟨?_, ?_, ?_, ?_, ?_⟩
  · intro env loc base tok w
    have h := probeLoop_spec env loc base tok PATH_PATTERNS [] w
    unfold requestCustomValuesForBase
    rcases h with ⟨pre, pat, rest, heq, hatt, hpre, hres⟩ | ⟨hs, hatt, hall⟩
    · left
      exact ⟨pre, pat, rest, heq, by simpa using hatt, hpre, hres⟩
    · right
      exact ⟨hs, by simpa using hatt, hall⟩
  · intro env locationId reqBody w w1 a1 hloc hget
    unfold customValuesPOST
    rw [if_neg hloc]
    dsimp only
    rw [hget]
  · intro env locationId base rest token allAtts retryUsed w w2 atts aFail hreq hauth hno0 hfind
    unfold cvLoop
    dsimp only
    rw [hreq]
    dsimp only
    rcases hauth with hauth | hauth
    · rw [hauth]
      rw [if_neg (by simp)]
      unfold cvStep cvFailResponse
      rw [hno0]
      rw [if_neg (by simp)]
      rw [hfind]
    · subst hauth
      rw [if_neg (by simp)]
      unfold cvStep cvFailResponse
      rw [hno0]
      rw [if_neg (by simp)]
      rw [hfind]
  · intro env locationId base rest token allAtts retryUsed w w2 atts aNet hreq hauth hsome0 hfind0
    unfold cvLoop
    dsimp only
    rw [hreq]
    dsimp only
    rcases hauth with hauth | hauth
    · rw [hauth]
      rw [if_neg (by simp)]
      unfold cvStep cvFailResponse
      rw [hsome0]
      rw [if_pos rfl]
      rw [hfind0]
    · subst hauth
      rw [if_neg (by simp)]
      unfold cvStep cvFailResponse
      rw [hsome0]
      rw [if_pos rfl]
      rw [hfind0]
  · intro env locationId base rest token allAtts w w2 atts hreq h401
    conv_lhs => unfold cvLoop
    dsimp only
    rw [hreq]
    dsimp only
    rw [h401]
    rw [if_pos (by simp)]

theorem proberStop_amended_spec_witness :
    (customValuesPOST envC2w "loc1" (some (JVal.objv [])) wC2w).1 =
      CVResponse.upstreamFailure
        "Go High Level returned status 500 for https://rest.gohighlevel.com/v1/customValues/location/loc1."
        500
        ["https://rest.gohighlevel.com/v1/locations/loc1/customValues",
         "https://rest.gohighlevel.com/v1/customValues/location/loc1"]
        ["https://rest.gohighlevel.com/v1", "https://rest.gohighlevel.com/v1"]
        ["/locations/loc1/customValues", "/customValues/location/loc1"] ∧
    (customValuesPOST envC2n "loc1" (some (JVal.objv [])) wC2n).1 =
      CVResponse.networkFailure "boom"
        ["https://rest.gohighlevel.com/v1/locations/loc1/customValues",
         "https://rest.gohighlevel.com/v1/customValues/location/loc1"]
        ["https://rest.gohighlevel.com/v1", "https://rest.gohighlevel.com/v1"]
        ["/locations/loc1/customValues", "/customValues/location/loc1"] := by
  constructor
  · have hd := proberStop_amended_spec.2.1 envC2w "loc1" (some (JVal.objv [])) wC2w
      (getPrivateAccessToken envC2w wC2w).2 "t1" (by decide) (by rfl)
    have hs := proberStop_amended_spec.2.2.1 envC2w "loc1" DEFAULT_GHL_BASE_URL
      [LEADCONNECTOR_BASE_URL] "t1" [] false
      (getPrivateAccessToken envC2w wC2w).2
      (requestCustomValuesForBase envC2w "loc1" DEFAULT_GHL_BASE_URL "t1"
        (getPrivateAccessToken envC2w wC2w).2).2
      (requestCustomValuesForBase envC2w "loc1" DEFAULT_GHL_BASE_URL "t1"
        (getPrivateAccessToken envC2w wC2w).2).1.2
      { ok := false, status := 500,
        url := "https://rest.gohighlevel.com/v1/customValues/location/loc1",
        baseUrl := "https://rest.gohighlevel.com/v1",
        path := "/customValues/location/loc1",
        payload := JVal.nullv,
        message := "Go High Level returned status 500 for https://rest.gohighlevel.com/v1/customValues/location/loc1." }
      (by rfl) (Or.inl (by rfl)) (by rfl) (by rfl)
    have hlist : candidateBases (sanitiseBaseUrl
        (jGetField ((some (JVal.objv [])).getD (JVal.objv [])) "baseUrl")) =
        [DEFAULT_GHL_BASE_URL, LEADCONNECTOR_BASE_URL] := rfl
    rw [hd, hlist, hs]
    rfl
  · have hd := proberStop_amended_spec.2.1 envC2n "loc1" (some (JVal.objv [])) wC2n
      (getPrivateAccessToken envC2n wC2n).2 "t1" (by decide) (by rfl)
    have hs := proberStop_amended_spec.2.2.2.1 envC2n "loc1" DEFAULT_GHL_BASE_URL
      [LEADCONNECTOR_BASE_URL] "t1" [] false
      (getPrivateAccessToken envC2n wC2n).2
      (requestCustomValuesForBase envC2n "loc1" DEFAULT_GHL_BASE_URL "t1"
        (getPrivateAccessToken envC2n wC2n).2).2
      (requestCustomValuesForBase envC2n "loc1" DEFAULT_GHL_BASE_URL "t1"
        (getPrivateAccessToken envC2n wC2n).2).1.2
      { ok := false, status := 0,
        url := "https://rest.gohighlevel.com/v1/customValues/location/loc1",
        baseUrl := "https://rest.gohighlevel.com/v1",
        path := "/customValues/location/loc1",
        payload := JVal.nullv,
        message := "boom" }
      (by rfl) (Or.inl (by rfl)) (by rfl) (by rfl)
    have hlist : candidateBases (sanitiseBaseUrl
        (jGetField ((some (JVal.objv [])).getD (JVal.objv [])) "baseUrl")) =
        [DEFAULT_GHL_BASE_URL, LEADCONNECTOR_BASE_URL] := rfl
    rw [hd, hlist, hs]
    rfl
